import Mathlib

/-!
# Exponential backoff (`ExponentialBackoff.go`, `GetZeroElem.go`)

A shallow embedding of the retry strategy of the `utils` package.

* Go's `int` is the 64-bit two's-complement integer: every arithmetic result is
  reduced with `wrap64`.
* The strategy is an explicit state record; `PerformBackoff` threads it through
  the retry loop and hands it back in the run record.
* The wrapped `operation` is a stream of outcomes indexed by invocation number
  (`(res, err)` pairs, exactly what the Go closure returns).
* `rand.Intn` is external: the value it returns at the `i`-th failure is supplied
  by a stream; its only modelled behaviour is the panic on a non-positive bound.
* The loop can run forever (unlimited retries, an operation that never
  succeeds), so it takes fuel: `none` means the fuel ran out.
-/

namespace Utils

/-! ## Go `int` arithmetic -/

/-- Reduction of a mathematical integer to the value a 64-bit signed Go `int` holds. -/
def wrap64 (x : Int) : Int := (x + 2 ^ 63) % 2 ^ 64 - 2 ^ 63

/-- The values a Go `int` can hold. -/
def isInt64 (x : Int) : Prop := -(2 ^ 63) ≤ x ∧ x < 2 ^ 63

instance (x : Int) : Decidable (isInt64 x) := by
  unfold isInt64; exact inferInstance

/-- Run-time panics the backoff code can raise. -/
inductive GoPanic where
  /-- Raised by `x << c` with a negative shift count. -/
  | negativeShift
  /-- Raised by `rand.Intn(n)` with `n <= 0`. -/
  | invalidIntn
deriving DecidableEq, Repr

/-- Go's `x << c` on `int`: panics on a negative count, yields `0` once every bit
has been shifted out, and is multiplication by `2 ^ c` modulo `2 ^ 64` otherwise. -/
def shl64 (x c : Int) : Except GoPanic Int :=
  if c < 0 then .error .negativeShift
  else if 64 ≤ c then .ok 0
  else .ok (wrap64 (x * 2 ^ c.toNat))

/-! ## Data model -/

/-- Errors are values of Go's `error` interface: either one the wrapped operation
handed back, or one created here with `errors.New`. -/
inductive GoError (E : Type) where
  | ofOperation (e : E)
  | errorsNew (msg : String)
deriving DecidableEq, Repr

/-- ExpBackoffOpts: `MaxRetries` is a nilable pointer in the source. -/
structure ExpBackoffOpts where
  TimeoutInNanosecs : Int
  MaxRetries : Option Int
deriving DecidableEq, Repr

/-- ExponentialBackoffStrat: the four `int` fields of the strategy (the
`maxRetries` pointer is never nil after construction, so it is held by value). -/
structure ExponentialBackoffStrat where
  depth : Int
  initialTimeout : Int
  currentTimeout : Int
  maxRetries : Int
deriving DecidableEq, Repr

/-- DefaultMaxRetries: the sentinel for unlimited retries. -/
def DefaultMaxRetries : Int := -1

/-- GetZero: the zero value of `T`. -/
def GetZero (T : Type) [Inhabited T] : T := default

/-- The message of the error `PerformBackoff` creates on exhaustion. -/
def maxRetriesMsg : String := "process reached max retries on exponential backoff"

/-- NewExponentialBackoffStrat. -/
def NewExponentialBackoffStrat (opts : ExpBackoffOpts) : ExponentialBackoffStrat :=
  let maxRetries :=
    match opts.MaxRetries with
    | some m => m
    | none => DefaultMaxRetries
  { depth := 1
    initialTimeout := opts.TimeoutInNanosecs
    currentTimeout := opts.TimeoutInNanosecs
    maxRetries := maxRetries }

/-- Reset. -/
def Reset (expStrat : ExponentialBackoffStrat) : ExponentialBackoffStrat :=
  { expStrat with depth := 1, currentTimeout := expStrat.initialTimeout }

/-- generateJitter: `r` is the value `rand.Intn(2 * n + 1)` returns; Go's `/`
truncates toward zero. -/
def generateJitter (expStrat : ExponentialBackoffStrat) (r : Int) : Except GoPanic Int :=
  let n := Int.tdiv expStrat.currentTimeout 4
  if wrap64 (2 * n + 1) ≤ 0 then .error .invalidIntn
  else .ok (wrap64 (r - n))

/-- What one call of `PerformBackoff` leaves behind: the returned pair, the
strategy state, how often the operation was invoked and the durations handed to
`time.Sleep`, oldest first. -/
structure BackoffRun (T E : Type) where
  res : T
  err : Option (GoError E)
  strat : ExponentialBackoffStrat
  calls : Nat
  sleeps : List Int
deriving DecidableEq, Repr

/-- The body of the `err != nil` branch of `PerformBackoff`: draw the jitter, sleep,
shift the timeout, step the depth. Yields the new state and the duration handed
to `time.Sleep` (`time.Nanosecond` is `1`). -/
def failedAttempt (expStrat : ExponentialBackoffStrat) (r : Int) :
    Except GoPanic (ExponentialBackoffStrat × Int) :=
  match generateJitter expStrat r with
  | .error p => .error p
  | .ok jitter =>
    let slept := wrap64 (expStrat.currentTimeout + jitter)
    match shl64 expStrat.currentTimeout (wrap64 (expStrat.depth - 1)) with
    | .error p => .error p
    | .ok shifted =>
      .ok ({ expStrat with currentTimeout := shifted, depth := wrap64 (expStrat.depth + 1) },
        slept)

/-- The exhaustion check at the top of the loop. -/
def exhausted (expStrat : ExponentialBackoffStrat) : Bool :=
  decide (expStrat.depth > expStrat.maxRetries) && decide (expStrat.maxRetries ≠ DefaultMaxRetries)

/-- The `for` loop of `PerformBackoff`. `calls` counts the invocations made so far
(it is also the number of `rand.Intn` draws made so far) and `sleeps` collects
the sleep durations. -/
def PerformBackoff.loop {T E : Type} [Inhabited T] (operation : Nat → T × Option E)
    (rnd : Nat → Int) :
    Nat → ExponentialBackoffStrat → Nat → List Int → Option (Except GoPanic (BackoffRun T E))
  | 0, _, _, _ => none
  | fuel + 1, expStrat, calls, sleeps =>
    if exhausted expStrat then
      some (.ok ⟨GetZero T, some (.errorsNew maxRetriesMsg), expStrat, calls, sleeps⟩)
    else
      match operation calls with
      | (_, some _) =>
        match failedAttempt expStrat (rnd calls) with
        | .error p => some (.error p)
        | .ok (next, slept) =>
          PerformBackoff.loop operation rnd fuel next (calls + 1) (sleeps ++ [slept])
      | (res, none) => some (.ok ⟨res, none, expStrat, calls + 1, sleeps⟩)

/-- PerformBackoff, run with `fuel` loop iterations available. -/
def PerformBackoff {T E : Type} [Inhabited T] (fuel : Nat) (expStrat : ExponentialBackoffStrat)
    (operation : Nat → T × Option E) (rnd : Nat → Int) :
    Option (Except GoPanic (BackoffRun T E)) :=
  PerformBackoff.loop operation rnd fuel expStrat 0 []

/-! ## Operations used in the statements -/

/-- An operation that fails on its first `n` invocations and then succeeds with `v`. -/
def failsThenSucceeds {T : Type} (n : Nat) (v : T) (junk : T) : Nat → T × Option Unit :=
  fun i => if i < n then (junk, some ()) else (v, none)

/-- An operation that fails on every invocation. -/
def alwaysFails {T : Type} (junk : T) : Nat → T × Option Unit :=
  fun _ => (junk, some ())

/-- The exponent of the closed form of the timeout after `n` failed attempts:
`0 + 1 + ... + (n - 1)`. -/
def triangle (n : Nat) : Nat := n * (n - 1) / 2

/-- The state of a strategy built with timeout `T0` and retry bound `mr` after `n`
failed attempts, while no timeout has overflowed. -/
def closedForm (T0 mr : Int) (n : Nat) : ExponentialBackoffStrat :=
  { depth := (n : Int) + 1, initialTimeout := T0,
    currentTimeout := T0 * 2 ^ triangle n, maxRetries := mr }

/-- The states a strategy built from `opts` can be in: fresh, after `Reset`, after a
failed attempt inside the loop of `PerformBackoff`, after a `PerformBackoff` call that
returned. -/
inductive Reachable (opts : ExpBackoffOpts) : ExponentialBackoffStrat → Prop where
  | fresh : Reachable opts (NewExponentialBackoffStrat opts)
  | reset {s : ExponentialBackoffStrat} : Reachable opts s → Reachable opts (Reset s)
  | attempt {s next : ExponentialBackoffStrat} {r slept : Int} :
      Reachable opts s → exhausted s = false → failedAttempt s r = .ok (next, slept) →
      Reachable opts next
  | perform {T E : Type} [Inhabited T] {s : ExponentialBackoffStrat} (fuel : Nat)
      (op : Nat → T × Option E) (rnd : Nat → Int) (run : BackoffRun T E) :
      Reachable opts s → PerformBackoff fuel s op rnd = some (.ok run) →
      Reachable opts run.strat

/-- The states of one campaign of a strategy built from `opts`, indexed by the number
of failed attempts made since construction or the last `Reset`. A failed attempt is one
the loop of `PerformBackoff` makes: the exhaustion check passed and the attempt ran to
its end. -/
inductive SinceReset (opts : ExpBackoffOpts) : Nat → ExponentialBackoffStrat → Prop where
  | fresh : SinceReset opts 0 (NewExponentialBackoffStrat opts)
  | reset {n : Nat} {s : ExponentialBackoffStrat} :
      SinceReset opts n s → SinceReset opts 0 (Reset s)
  | failed {n : Nat} {s next : ExponentialBackoffStrat} {r slept : Int} :
      SinceReset opts n s → exhausted s = false → failedAttempt s r = .ok (next, slept) →
      SinceReset opts (n + 1) next

/-- What a caller can observe of a run apart from the sleep durations: the returned
pair, the state left behind, the number of invocations and the number of sleeps. -/
def BackoffRun.observable {T E : Type} (run : BackoffRun T E) :
    T × Option (GoError E) × ExponentialBackoffStrat × Nat × Nat :=
  (run.res, run.err, run.strat, run.calls, run.sleeps.length)

/-- The number of attempts still allowed in a state with a finite retry bound `k` and
depth `d`: `max(0, k - d + 1)`. -/
def attemptsLeft (s : ExponentialBackoffStrat) : Nat := (s.maxRetries - s.depth + 1).toNat

/-! ## Arithmetic lemmas -/

theorem wrap64_eq_self {x : Int} (h : isInt64 x) : wrap64 x = x := by
  unfold isInt64 at h
  unfold wrap64
  omega

theorem wrap64_isInt64 (x : Int) : isInt64 (wrap64 x) := by
  unfold isInt64 wrap64
  omega

theorem wrap64_mul_pow_of_ge (x : Int) {c : Nat} (h : 64 ≤ c) : wrap64 (x * 2 ^ c) = 0 := by
  obtain ⟨k, rfl⟩ := Nat.exists_eq_add_of_le h
  have e : x * 2 ^ (64 + k) + 2 ^ 63 = 2 ^ 63 + 2 ^ 64 * (x * 2 ^ k) := by ring
  unfold wrap64
  rw [e, Int.add_mul_emod_self_left]
  norm_num

theorem triangle_succ (n : Nat) : triangle (n + 1) = triangle n + n := by
  unfold triangle
  cases n with
  | zero => rfl
  | succ m =>
    have e : (m + 1 + 1) * (m + 1 + 1 - 1) = (m + 1) * (m + 1 - 1) + 2 * (m + 1) := by
      simp only [Nat.add_sub_cancel]
      ring
    rw [e, Nat.add_mul_div_left _ _ (by decide : 0 < 2)]

theorem tdiv_four_of_nonneg {x : Int} (h : 0 ≤ x) : Int.tdiv x 4 = x / 4 :=
  Int.tdiv_eq_ediv h (by decide)

/-! ## Unfolding the loop -/

theorem exhausted_iff (s : ExponentialBackoffStrat) :
    exhausted s = true ↔ s.depth > s.maxRetries ∧ s.maxRetries ≠ DefaultMaxRetries := by
  simp [exhausted]

theorem loop_exhausted {T E : Type} [Inhabited T] (op : Nat → T × Option E) (rnd : Nat → Int)
    (fuel : Nat) (s : ExponentialBackoffStrat) (calls : Nat) (sleeps : List Int)
    (h : exhausted s = true) :
    PerformBackoff.loop op rnd (fuel + 1) s calls sleeps
      = some (.ok ⟨GetZero T, some (.errorsNew maxRetriesMsg), s, calls, sleeps⟩) := by
  simp [PerformBackoff.loop, h]

theorem loop_success {T E : Type} [Inhabited T] (op : Nat → T × Option E) (rnd : Nat → Int)
    (fuel : Nat) (s : ExponentialBackoffStrat) (calls : Nat) (sleeps : List Int)
    (h : exhausted s = false) (hop : (op calls).2 = none) :
    PerformBackoff.loop op rnd (fuel + 1) s calls sleeps
      = some (.ok ⟨(op calls).1, none, s, calls + 1, sleeps⟩) := by
  rcases hoc : op calls with ⟨v, e⟩
  rw [hoc] at hop
  simp only at hop
  subst hop
  simp [PerformBackoff.loop, h, hoc]

theorem loop_failed {T E : Type} [Inhabited T] (op : Nat → T × Option E) (rnd : Nat → Int)
    (fuel : Nat) (s : ExponentialBackoffStrat) (calls : Nat) (sleeps : List Int)
    (h : exhausted s = false) (hop : (op calls).2 ≠ none) :
    PerformBackoff.loop op rnd (fuel + 1) s calls sleeps
      = match failedAttempt s (rnd calls) with
        | .error p => some (.error p)
        | .ok (next, slept) =>
          PerformBackoff.loop op rnd fuel next (calls + 1) (sleeps ++ [slept]) := by
  rcases hoc : op calls with ⟨v, e⟩
  rw [hoc] at hop
  cases e with
  | none => exact absurd rfl hop
  | some e => simp [PerformBackoff.loop, h, hoc]

/-- A failed attempt on a state with a non-negative timeout and a depth in
`[1, 2^63 - 2]` completes, with the state and the sleep written out. -/
theorem failedAttempt_of_nonneg (s : ExponentialBackoffStrat) (r : Int)
    (hd : 1 ≤ s.depth) (hd2 : s.depth + 1 < 2 ^ 63)
    (hc : 0 ≤ s.currentTimeout) (hc2 : s.currentTimeout < 2 ^ 63) :
    failedAttempt s r
      = .ok ({ depth := s.depth + 1, initialTimeout := s.initialTimeout,
               currentTimeout := wrap64 (s.currentTimeout * 2 ^ (s.depth - 1).toNat),
               maxRetries := s.maxRetries },
             wrap64 (s.currentTimeout + wrap64 (r - s.currentTimeout / 4))) := by
  have hj : ¬ wrap64 (2 * (s.currentTimeout / 4) + 1) ≤ 0 := by
    rw [wrap64_eq_self (by unfold isInt64; omega)]
    omega
  have hs : wrap64 (s.depth - 1) = s.depth - 1 := wrap64_eq_self (by unfold isInt64; omega)
  have hp : wrap64 (s.depth + 1) = s.depth + 1 := wrap64_eq_self (by unfold isInt64; omega)
  have hsh : shl64 s.currentTimeout (s.depth - 1)
      = .ok (wrap64 (s.currentTimeout * 2 ^ (s.depth - 1).toNat)) := by
    unfold shl64
    rw [if_neg (by omega)]
    split
    · rename_i h64
      rw [wrap64_mul_pow_of_ge _ (by omega : 64 ≤ (s.depth - 1).toNat)]
    · rfl
  simp only [failedAttempt, generateJitter, tdiv_four_of_nonneg hc, if_neg hj, hs, hp, hsh]

/-! ## Closed form of the state after `n` failed attempts on a fresh strategy -/

theorem triangle_mono {a b : Nat} (h : a ≤ b) : triangle a ≤ triangle b := by
  induction h with
  | refl => exact Nat.le_refl _
  | step _ ih => rw [triangle_succ]; omega

theorem timeout_mono {T0 : Int} (h0 : 0 ≤ T0) {a b : Nat} (h : a ≤ b) :
    T0 * 2 ^ triangle a ≤ T0 * 2 ^ triangle b := by
  apply mul_le_mul_of_nonneg_left _ h0
  exact pow_le_pow_right₀ (by norm_num) (triangle_mono h)

theorem timeout_nonneg {T0 : Int} (h0 : 0 ≤ T0) (n : Nat) : 0 ≤ T0 * 2 ^ triangle n :=
  mul_nonneg h0 (by positivity)

theorem failedAttempt_closedForm (T0 mr : Int) (n : Nat) (r : Int) (h0 : 0 ≤ T0)
    (hov : T0 * 2 ^ triangle (n + 1) < 2 ^ 63) (hn : (n : Int) + 2 < 2 ^ 63) :
    ∃ slept, failedAttempt (closedForm T0 mr n) r = .ok (closedForm T0 mr (n + 1), slept) := by
  have hle : T0 * 2 ^ triangle n ≤ T0 * 2 ^ triangle (n + 1) :=
    timeout_mono h0 (by omega)
  have hnn := timeout_nonneg h0 n
  have e : T0 * 2 ^ triangle n * 2 ^ ((n : Int) + 1 - 1).toNat = T0 * 2 ^ triangle (n + 1) := by
    have : ((n : Int) + 1 - 1).toNat = n := by omega
    rw [this, triangle_succ, pow_add, mul_assoc]
  have hstep := failedAttempt_of_nonneg (closedForm T0 mr n) r
    (by simp only [closedForm]; omega) (by simp only [closedForm]; omega)
    (by simp only [closedForm]; exact hnn) (by simp only [closedForm]; omega)
  simp only [closedForm, e] at hstep
  rw [wrap64_eq_self (by unfold isInt64; omega)] at hstep
  exact ⟨_, by simp only [closedForm, Nat.cast_add, Nat.cast_one]; exact hstep⟩

theorem loop_failures {T E : Type} [Inhabited T] (op : Nat → T × Option E) (rnd : Nat → Int)
    (T0 mr : Int) (h0 : 0 ≤ T0) (fuel : Nat) :
    ∀ (m n calls : Nat) (sleeps : List Int),
      T0 * 2 ^ triangle (n + m) < 2 ^ 63 → ((n + m : Nat) : Int) + 1 < 2 ^ 63 →
      (∀ i, i < m → exhausted (closedForm T0 mr (n + i)) = false) →
      (∀ i, i < m → (op (calls + i)).2 ≠ none) →
      ∃ more : List Int, more.length = m ∧
        PerformBackoff.loop op rnd (fuel + m) (closedForm T0 mr n) calls sleeps
          = PerformBackoff.loop op rnd fuel (closedForm T0 mr (n + m)) (calls + m)
              (sleeps ++ more) := by
  intro m
  induction m with
  | zero =>
    intro n calls sleeps _ _ _ _
    exact ⟨[], rfl, by simp⟩
  | succ m ih =>
    intro n calls sleeps hov hn hex hop
    have hov1 : T0 * 2 ^ triangle (n + 1) < 2 ^ 63 :=
      lt_of_le_of_lt (timeout_mono h0 (by omega)) hov
    obtain ⟨slept, hstep⟩ := failedAttempt_closedForm T0 mr n (rnd calls) h0 hov1
      (by push_cast at hn ⊢; omega)
    obtain ⟨more, hlen, hrun⟩ := ih (n + 1) (calls + 1) (sleeps ++ [slept])
      (by rw [show n + 1 + m = n + (m + 1) by omega]; exact hov)
      (by rw [show n + 1 + m = n + (m + 1) by omega]; exact hn)
      (fun i hi => by
        have := hex (i + 1) (by omega)
        rwa [show n + (i + 1) = n + 1 + i by omega] at this)
      (fun i hi => by
        have := hop (i + 1) (by omega)
        rwa [show calls + (i + 1) = calls + 1 + i by omega] at this)
    refine ⟨slept :: more, by simp [hlen], ?_⟩
    have h00 := hex 0 (by omega)
    have hop0 := hop 0 (by omega)
    simp only [Nat.add_zero] at h00 hop0
    rw [show fuel + (m + 1) = (fuel + m) + 1 by omega, loop_failed op rnd _ _ _ _ h00 hop0, hstep]
    simp only
    rw [hrun, show n + 1 + m = n + (m + 1) by omega, show calls + 1 + m = calls + (m + 1) by omega]
    simp

theorem closedForm_zero (opts : ExpBackoffOpts) :
    NewExponentialBackoffStrat opts
      = closedForm opts.TimeoutInNanosecs
          (match opts.MaxRetries with
            | some m => m
            | none => DefaultMaxRetries) 0 := by
  simp [NewExponentialBackoffStrat, closedForm, triangle]

/-! ## Runs of `PerformBackoff` on a fresh strategy -/

/-- A fresh strategy whose operation fails `n` times and then succeeds, with the
exhaustion check passing at each of the `n + 1` attempts, returns the success value. -/
theorem run_fails_then_succeeds {T E : Type} [Inhabited T] (T0 mr : Int) (n : Nat) (v : T)
    (op : Nat → T × Option E) (rnd : Nat → Int) (fuel : Nat)
    (h0 : 0 ≤ T0) (hov : T0 * 2 ^ triangle n < 2 ^ 63) (hn : (n : Int) + 1 < 2 ^ 63)
    (hex : ∀ i, i ≤ n → exhausted (closedForm T0 mr i) = false)
    (hfail : ∀ i, i < n → (op i).2 ≠ none) (hsucc : op n = (v, none)) (hfuel : n < fuel) :
    ∃ sleeps : List Int, sleeps.length = n ∧
      PerformBackoff.loop op rnd fuel (closedForm T0 mr 0) 0 []
        = some (.ok ⟨v, none, closedForm T0 mr n, n + 1, sleeps⟩) := by
  obtain ⟨more, hlen, hrun⟩ := loop_failures op rnd T0 mr h0 (fuel - n) n 0 0 []
    (by simpa using hov) (by simpa using hn)
    (fun i hi => by simpa using hex i (by omega))
    (fun i hi => by simpa using hfail i hi)
  refine ⟨more, hlen, ?_⟩
  rw [show fuel = fuel - n + n by omega, hrun]
  obtain ⟨f, hf⟩ : ∃ f, fuel - n = f + 1 := ⟨fuel - n - 1, by omega⟩
  have hs : (op n).2 = none := by simp [hsucc]
  rw [hf, Nat.zero_add, loop_success op rnd f _ _ _ (hex n (Nat.le_refl n)) hs]
  simp [hsucc]

/-- A fresh strategy with retry bound `k` whose operation keeps failing gives up
after `k` invocations. -/
theorem run_exhausts {T E : Type} [Inhabited T] (T0 : Int) (k : Nat)
    (op : Nat → T × Option E) (rnd : Nat → Int) (fuel : Nat)
    (h0 : 0 ≤ T0) (hov : T0 * 2 ^ triangle k < 2 ^ 63) (hk : (k : Int) + 1 < 2 ^ 63)
    (hfail : ∀ i, i < k → (op i).2 ≠ none) (hfuel : k < fuel) :
    ∃ sleeps : List Int, sleeps.length = k ∧
      PerformBackoff.loop op rnd fuel (closedForm T0 k 0) 0 []
        = some (.ok ⟨GetZero T, some (.errorsNew maxRetriesMsg), closedForm T0 k k, k,
            sleeps⟩) := by
  obtain ⟨more, hlen, hrun⟩ := loop_failures op rnd T0 k h0 (fuel - k) k 0 0 []
    (by simpa using hov) (by simpa using hk)
    (fun i hi => by
      simp only [exhausted, closedForm, DefaultMaxRetries, Nat.zero_add]
      simp only [Bool.and_eq_false_imp, decide_eq_true_eq]
      intro h
      omega)
    (fun i hi => by simpa using hfail i hi)
  refine ⟨more, hlen, ?_⟩
  rw [show fuel = fuel - k + k by omega, hrun]
  obtain ⟨f, hf⟩ : ∃ f, fuel - k = f + 1 := ⟨fuel - k - 1, by omega⟩
  have hx : exhausted (closedForm T0 k k) = true := by
    rw [exhausted_iff]
    simp only [closedForm, DefaultMaxRetries]
    omega
  rw [hf, Nat.zero_add, loop_exhausted op rnd f _ _ _ hx]
  simp

/-! ## C1 -/

/-- C1 (amended): for every retry bound `k >= 0` and every fresh strategy whose
timeout does not overflow during the run (`0 <= T0`, `T0 * 2 ^ (k (k - 1) / 2) < 2 ^ 63`),
when the operation fails on every invocation, `PerformBackoff` returns the exhaustion
failure after exactly `k` invocations (attempts at depth `1..k`), with `k` sleeps and
final depth `k + 1`. -/
theorem C1_exhaustion_after_k_invocations {T E : Type} [Inhabited T] (T0 : Int) (k : Nat)
    (op : Nat → T × Option E) (rnd : Nat → Int) (fuel : Nat)
    (h0 : 0 ≤ T0) (hov : T0 * 2 ^ triangle k < 2 ^ 63) (hk : (k : Int) + 1 < 2 ^ 63)
    (hfail : ∀ i, (op i).2 ≠ none) (hfuel : k < fuel) :
    ∃ sleeps : List Int, sleeps.length = k ∧
      PerformBackoff fuel (NewExponentialBackoffStrat ⟨T0, some (k : Int)⟩) op rnd
        = some (.ok ⟨GetZero T, some (.errorsNew maxRetriesMsg),
            ⟨(k : Int) + 1, T0, T0 * 2 ^ triangle k, (k : Int)⟩, k, sleeps⟩) := by
  have h := run_exhausts T0 k op rnd fuel h0 hov hk (fun i _ => hfail i) hfuel
  simpa only [PerformBackoff, closedForm_zero, closedForm] using h

/-- C1, concrete instance: bound `2`, timeout `1000`, three iterations of fuel. -/
theorem C1_exhaustion_after_k_invocations_witness :
    ∃ sleeps : List Int, sleeps.length = 2 ∧
      PerformBackoff 3 (NewExponentialBackoffStrat ⟨1000, some ((2 : Nat) : Int)⟩)
          (alwaysFails (0 : Nat)) (fun _ => 0)
        = some (.ok ⟨GetZero Nat, some (.errorsNew maxRetriesMsg),
            ⟨((2 : Nat) : Int) + 1, 1000, 1000 * 2 ^ triangle 2, ((2 : Nat) : Int)⟩, 2,
            sleeps⟩) :=
  C1_exhaustion_after_k_invocations 1000 2 (alwaysFails (0 : Nat)) (fun _ => 0) 3
    (by decide) (by decide) (by decide) (fun _ => by simp [alwaysFails]) (by decide)

/-- C1 as written fails: with `maxRetries = 2` an always-failing operation is
invoked twice (not three times) and the final depth is `3` (not `4`), whatever the
fuel; and with an initial timeout of `2 ^ 62` the third failure panics in `rand.Intn`
instead of reaching the exhaustion failure. -/
theorem C1_counterexample :
    (∀ fuel : Nat,
      PerformBackoff (fuel + 3) (NewExponentialBackoffStrat ⟨1000, some 2⟩)
          (alwaysFails (0 : Nat)) (fun _ => 0)
        = some (.ok ⟨0, some (.errorsNew maxRetriesMsg), ⟨3, 1000, 2000, 2⟩, 2, [750, 750]⟩))
    ∧ (∀ fuel : Nat,
      PerformBackoff (fuel + 3) (NewExponentialBackoffStrat ⟨2 ^ 62, some 5⟩)
          (alwaysFails (0 : Nat)) (fun _ => 0)
        = some (.error .invalidIntn)) :=
  ⟨fun _ => rfl, fun _ => rfl⟩

/-! ## C2 -/

/-- C2 (amended): for every retry bound `k` and every fresh strategy whose timeout
does not overflow during the run, when the operation fails on its first `j`
invocations with `j < k` and succeeds with `v` on invocation `j + 1`, `PerformBackoff`
returns `(v, nil)` after `j + 1` invocations, exactly `j` delays are incurred and the
final depth is `j + 1`. -/
theorem C2_success_within_bound {T E : Type} [Inhabited T] (T0 : Int) (k j : Nat) (v : T)
    (op : Nat → T × Option E) (rnd : Nat → Int) (fuel : Nat)
    (h0 : 0 ≤ T0) (hov : T0 * 2 ^ triangle j < 2 ^ 63) (hjk : j < k)
    (hk : (k : Int) < 2 ^ 63)
    (hfail : ∀ i, i < j → (op i).2 ≠ none) (hsucc : op j = (v, none)) (hfuel : j < fuel) :
    ∃ sleeps : List Int, sleeps.length = j ∧
      PerformBackoff fuel (NewExponentialBackoffStrat ⟨T0, some (k : Int)⟩) op rnd
        = some (.ok ⟨v, none, ⟨(j : Int) + 1, T0, T0 * 2 ^ triangle j, (k : Int)⟩, j + 1,
            sleeps⟩) := by
  have h := run_fails_then_succeeds T0 k j v op rnd fuel h0 hov (by omega)
    (fun i hi => by
      simp only [exhausted, closedForm, DefaultMaxRetries]
      simp only [Bool.and_eq_false_imp, decide_eq_true_eq]
      intro h
      omega)
    hfail hsucc hfuel
  simpa only [PerformBackoff, closedForm_zero, closedForm] using h

/-- C2, concrete instance: timeout `1000`, bound `2`, one failure, success on the
second attempt, final depth `2`. -/
theorem C2_success_within_bound_witness :
    ∃ sleeps : List Int, sleeps.length = 1 ∧
      PerformBackoff 2 (NewExponentialBackoffStrat ⟨1000, some ((2 : Nat) : Int)⟩)
          (failsThenSucceeds 1 (7 : Nat) 0) (fun _ => 0)
        = some (.ok ⟨7, none, ⟨((1 : Nat) : Int) + 1, 1000, 1000 * 2 ^ triangle 1,
            ((2 : Nat) : Int)⟩, 1 + 1, sleeps⟩) :=
  C2_success_within_bound 1000 2 1 7 (failsThenSucceeds 1 (7 : Nat) 0) (fun _ => 0) 2
    (by decide) (by decide) (by decide) (by decide)
    (fun i hi => by simp [failsThenSucceeds, hi]) (by simp [failsThenSucceeds]) (by decide)

/-- C2 as written fails: with timeout `1000`, `maxRetries = 2` and an operation that
fails on attempts 1 and 2 and would succeed with `7` on attempt 3, the third attempt
is never made: the exhaustion failure is returned after two invocations, with final
depth `3`. With `maxRetries = 0` the operation that succeeds at once is never invoked.
With an initial timeout of `2 ^ 62` and bound `5` the third failure panics. -/
theorem C2_counterexample :
    (∀ fuel : Nat,
      PerformBackoff (fuel + 3) (NewExponentialBackoffStrat ⟨1000, some 2⟩)
          (failsThenSucceeds 2 (7 : Nat) 0) (fun _ => 0)
        = some (.ok ⟨0, some (.errorsNew maxRetriesMsg), ⟨3, 1000, 2000, 2⟩, 2, [750, 750]⟩))
    ∧ (∀ fuel : Nat,
      PerformBackoff (fuel + 1) (NewExponentialBackoffStrat ⟨1000, some 0⟩)
          (failsThenSucceeds 0 (7 : Nat) 0) (fun _ => 0)
        = some (.ok ⟨0, some (.errorsNew maxRetriesMsg), ⟨1, 1000, 1000, 0⟩, 0, []⟩))
    ∧ (∀ fuel : Nat,
      PerformBackoff (fuel + 4) (NewExponentialBackoffStrat ⟨2 ^ 62, some 5⟩)
          (failsThenSucceeds 4 (7 : Nat) 0) (fun _ => 0)
        = some (.error .invalidIntn)) :=
  ⟨fun _ => rfl, fun _ => rfl, fun _ => rfl⟩

/-! ## C3 -/

/-- C3 (amended): for every strategy freshly constructed with `MaxRetries` absent and a
timeout that does not overflow during the run (`0 <= T0`,
`T0 * 2 ^ (N (N - 1) / 2) < 2 ^ 63`), every `N` and every value `v`, when the operation
fails on its first `N` invocations and then succeeds with `v`, `PerformBackoff` returns
`(v, nil)` after exactly `N + 1` invocations and exactly `N` delays, and the final
depth is `N + 1`. -/
theorem C3_unlimited_fails_then_succeeds {T E : Type} [Inhabited T] (T0 : Int) (N : Nat)
    (v : T) (op : Nat → T × Option E) (rnd : Nat → Int) (fuel : Nat)
    (h0 : 0 ≤ T0) (hov : T0 * 2 ^ triangle N < 2 ^ 63) (hN : (N : Int) + 1 < 2 ^ 63)
    (hfail : ∀ i, i < N → (op i).2 ≠ none) (hsucc : op N = (v, none)) (hfuel : N < fuel) :
    ∃ sleeps : List Int, sleeps.length = N ∧
      PerformBackoff fuel (NewExponentialBackoffStrat ⟨T0, none⟩) op rnd
        = some (.ok ⟨v, none, ⟨(N : Int) + 1, T0, T0 * 2 ^ triangle N, DefaultMaxRetries⟩,
            N + 1, sleeps⟩) := by
  have h := run_fails_then_succeeds T0 DefaultMaxRetries N v op rnd fuel h0 hov hN
    (fun i _ => by simp [exhausted, closedForm])
    hfail hsucc hfuel
  simpa only [PerformBackoff, closedForm_zero, closedForm] using h

/-- C3, concrete instance: timeout `100`, three failures, success on the fourth
attempt. -/
theorem C3_unlimited_fails_then_succeeds_witness :
    ∃ sleeps : List Int, sleeps.length = 3 ∧
      PerformBackoff 4 (NewExponentialBackoffStrat ⟨100, none⟩)
          (failsThenSucceeds 3 (7 : Nat) 0) (fun _ => 0)
        = some (.ok ⟨7, none, ⟨((3 : Nat) : Int) + 1, 100, 100 * 2 ^ triangle 3,
            DefaultMaxRetries⟩, 3 + 1, sleeps⟩) :=
  C3_unlimited_fails_then_succeeds 100 3 7 (failsThenSucceeds 3 (7 : Nat) 0) (fun _ => 0) 4
    (by decide) (by decide) (by decide)
    (fun i hi => by simp [failsThenSucceeds, hi]) (by simp [failsThenSucceeds]) (by decide)

/-- C3 as written fails: a strategy with unlimited retries and initial timeout `2 ^ 62`
whose operation fails three times and would then succeed never returns the success
value. The second failure shifts the timeout to `2 ^ 63`, which a Go `int` holds as
`-2 ^ 63`, and at the third failure `rand.Intn` is called with a negative bound and
panics. The same happens at the twelfth failure with an initial timeout of `1000`. -/
theorem C3_counterexample :
    (∀ fuel : Nat,
      PerformBackoff (fuel + 3) (NewExponentialBackoffStrat ⟨2 ^ 62, none⟩)
          (failsThenSucceeds 3 (7 : Nat) 0) (fun _ => 0)
        = some (.error .invalidIntn))
    ∧ PerformBackoff 2 (NewExponentialBackoffStrat ⟨2 ^ 62, none⟩)
          (failsThenSucceeds 3 (7 : Nat) 0) (fun _ => 0) = none
    ∧ (PerformBackoff 3 (NewExponentialBackoffStrat ⟨2 ^ 62, none⟩)
          (failsThenSucceeds 2 (7 : Nat) 0) (fun _ => 0)).map (Except.map (·.strat))
        = some (.ok ⟨3, 2 ^ 62, -(2 ^ 63), -1⟩)
    ∧ (∀ fuel : Nat,
      PerformBackoff (fuel + 12) (NewExponentialBackoffStrat ⟨1000, none⟩)
          (failsThenSucceeds 12 (7 : Nat) 0) (fun _ => 0)
        = some (.error .invalidIntn)) :=
  ⟨fun _ => rfl, rfl, rfl, fun _ => rfl⟩

/-! ## C4 -/

theorem shl64_depth (x d : Int) (hd : 1 ≤ d) (hd2 : d < 2 ^ 63) :
    shl64 x (wrap64 (d - 1)) = .ok (wrap64 (x * 2 ^ (d - 1).toNat)) := by
  rw [wrap64_eq_self (by unfold isInt64; omega)]
  unfold shl64
  rw [if_neg (by omega)]
  split
  · rw [wrap64_mul_pow_of_ge _ (by omega : 64 ≤ (d - 1).toNat)]
  · rfl

/-- C4: in every strategy state with depth `d >= 1`, a failed attempt of `PerformBackoff`
(one whose jitter draw goes through) sets `currentTimeout` to the value of Go's
`currentTimeout << (d - 1)`, that is `currentTimeout * 2 ^ (d - 1)` reduced to a 64-bit
`int` (and exactly that product when it fits), and `depth` to Go's `d + 1` (exactly
`d + 1` below the top of the `int` range); the loop goes on from that state.
Starting from `initialTimeout = 100` the timeout after 0, 1, 2, 3 failures is
`100, 100, 200, 800`. -/
theorem C4_failed_attempt_update {T E : Type} [Inhabited T] (s : ExponentialBackoffStrat)
    (r j : Int) (hd : 1 ≤ s.depth) (hd2 : s.depth < 2 ^ 63)
    (hj : generateJitter s r = .ok j) :
    failedAttempt s r
        = .ok ({ depth := wrap64 (s.depth + 1), initialTimeout := s.initialTimeout,
                 currentTimeout := wrap64 (s.currentTimeout * 2 ^ (s.depth - 1).toNat),
                 maxRetries := s.maxRetries },
               wrap64 (s.currentTimeout + j))
    ∧ (s.depth + 1 < 2 ^ 63 → wrap64 (s.depth + 1) = s.depth + 1)
    ∧ (isInt64 (s.currentTimeout * 2 ^ (s.depth - 1).toNat) →
        wrap64 (s.currentTimeout * 2 ^ (s.depth - 1).toNat)
          = s.currentTimeout * 2 ^ (s.depth - 1).toNat)
    ∧ (∀ (op : Nat → T × Option E) (rnd : Nat → Int) (fuel calls : Nat) (sleeps : List Int),
        exhausted s = false → (op calls).2 ≠ none → rnd calls = r →
        PerformBackoff.loop op rnd (fuel + 1) s calls sleeps
          = PerformBackoff.loop op rnd fuel
              { depth := wrap64 (s.depth + 1), initialTimeout := s.initialTimeout,
                currentTimeout := wrap64 (s.currentTimeout * 2 ^ (s.depth - 1).toNat),
                maxRetries := s.maxRetries }
              (calls + 1) (sleeps ++ [wrap64 (s.currentTimeout + j)]))
    ∧ (PerformBackoff 4 (NewExponentialBackoffStrat ⟨100, none⟩)
          (failsThenSucceeds 0 (7 : Nat) 0) (fun _ => 0)).map
          (Except.map (·.strat.currentTimeout)) = some (.ok 100)
    ∧ (PerformBackoff 4 (NewExponentialBackoffStrat ⟨100, none⟩)
          (failsThenSucceeds 1 (7 : Nat) 0) (fun _ => 0)).map
          (Except.map (·.strat.currentTimeout)) = some (.ok 100)
    ∧ (PerformBackoff 4 (NewExponentialBackoffStrat ⟨100, none⟩)
          (failsThenSucceeds 2 (7 : Nat) 0) (fun _ => 0)).map
          (Except.map (·.strat.currentTimeout)) = some (.ok 200)
    ∧ (PerformBackoff 4 (NewExponentialBackoffStrat ⟨100, none⟩)
          (failsThenSucceeds 3 (7 : Nat) 0) (fun _ => 0)).map
          (Except.map (·.strat.currentTimeout)) = some (.ok 800) := by
  have hstep : failedAttempt s r
        = .ok ({ depth := wrap64 (s.depth + 1), initialTimeout := s.initialTimeout,
                 currentTimeout := wrap64 (s.currentTimeout * 2 ^ (s.depth - 1).toNat),
                 maxRetries := s.maxRetries },
               wrap64 (s.currentTimeout + j)) := by
    simp only [failedAttempt, hj, shl64_depth s.currentTimeout s.depth hd hd2]
  refine ⟨hstep, fun h => wrap64_eq_self (by unfold isInt64; omega), wrap64_eq_self, ?_,
    rfl, rfl, rfl, rfl⟩
  intro op rnd fuel calls sleeps hex hop hr
  rw [loop_failed op rnd fuel s calls sleeps hex hop, hr, hstep]

/-- C4, concrete instance: depth `3`, timeout `200`, jitter `-50`: the timeout becomes
`800` and the depth `4`. -/
theorem C4_failed_attempt_update_witness :
    generateJitter ⟨3, 100, 200, -1⟩ 0 = .ok (-50)
    ∧ failedAttempt ⟨3, 100, 200, -1⟩ 0 = .ok (⟨4, 100, 800, -1⟩, 150) :=
  ⟨rfl, ((C4_failed_attempt_update (T := Nat) (E := Unit) ⟨3, 100, 200, -1⟩ 0 (-50)
    (by decide) (by decide) (by rfl)).1).trans (by rfl)⟩

/-! ## Frame: what the loop never writes -/

theorem failedAttempt_frame {s next : ExponentialBackoffStrat} {r slept : Int}
    (h : failedAttempt s r = .ok (next, slept)) :
    next.initialTimeout = s.initialTimeout ∧ next.maxRetries = s.maxRetries := by
  unfold failedAttempt at h
  split at h
  · cases h
  · split at h
    · cases h
    · injection h with h
      injection h with h1 _
      subst h1
      exact ⟨rfl, rfl⟩

theorem loop_frame {T E : Type} [Inhabited T] (op : Nat → T × Option E) (rnd : Nat → Int) :
    ∀ (fuel : Nat) (s : ExponentialBackoffStrat) (calls : Nat) (sleeps : List Int)
      (run : BackoffRun T E),
      PerformBackoff.loop op rnd fuel s calls sleeps = some (.ok run) →
      run.strat.initialTimeout = s.initialTimeout ∧ run.strat.maxRetries = s.maxRetries := by
  intro fuel
  induction fuel with
  | zero => intro s calls sleeps run h; simp [PerformBackoff.loop] at h
  | succ fuel ih =>
    intro s calls sleeps run h
    cases hex : exhausted s with
    | true =>
      rw [loop_exhausted op rnd fuel s calls sleeps hex] at h
      injection h with h
      injection h with h
      subst h
      exact ⟨rfl, rfl⟩
    | false =>
      cases hop : (op calls).2 with
      | none =>
        rw [loop_success op rnd fuel s calls sleeps hex hop] at h
        injection h with h
        injection h with h
        subst h
        exact ⟨rfl, rfl⟩
      | some e =>
        rw [loop_failed op rnd fuel s calls sleeps hex (by simp [hop])] at h
        cases hfa : failedAttempt s (rnd calls) with
        | error p => rw [hfa] at h; simp at h
        | ok pr =>
          obtain ⟨next, slept⟩ := pr
          rw [hfa] at h
          have h1 := ih next (calls + 1) (sleeps ++ [slept]) run h
          have h2 := failedAttempt_frame hfa
          exact ⟨h1.1.trans h2.1, h1.2.trans h2.2⟩

theorem reachable_frame {opts : ExpBackoffOpts} {s : ExponentialBackoffStrat}
    (h : Reachable opts s) :
    s.initialTimeout = opts.TimeoutInNanosecs
      ∧ s.maxRetries = (NewExponentialBackoffStrat opts).maxRetries := by
  induction h with
  | fresh => exact ⟨rfl, rfl⟩
  | reset _ ih => exact ih
  | attempt _ _ hfa ih =>
    have h2 := failedAttempt_frame hfa
    exact ⟨h2.1.trans ih.1, h2.2.trans ih.2⟩
  | perform fuel op rnd run _ hrun ih =>
    have h2 := loop_frame op rnd fuel _ 0 [] run hrun
    exact ⟨h2.1.trans ih.1, h2.2.trans ih.2⟩

/-! ## C5 -/

/-- C5: for every strategy built from options `opts` and every state reachable from it
by `PerformBackoff` and `Reset` calls (states inside a call included), `Reset` yields
exactly the state `NewExponentialBackoffStrat opts` produces: depth `1`,
`currentTimeout = initialTimeout`, `maxRetries` unchanged. A `PerformBackoff` after
`Reset` therefore behaves as on a fresh strategy: same result, same number of
invocations, same sleeps, for every operation, every jitter stream and every fuel. -/
theorem C5_reset_restores_fresh_state (opts : ExpBackoffOpts) (s : ExponentialBackoffStrat)
    (h : Reachable opts s) :
    Reset s = NewExponentialBackoffStrat opts
    ∧ (Reset s).depth = 1
    ∧ (Reset s).currentTimeout = s.initialTimeout
    ∧ (Reset s).initialTimeout = s.initialTimeout
    ∧ (Reset s).maxRetries = s.maxRetries
    ∧ (∀ (T E : Type) [Inhabited T] (fuel : Nat) (op : Nat → T × Option E) (rnd : Nat → Int),
        PerformBackoff fuel (Reset s) op rnd
          = PerformBackoff fuel (NewExponentialBackoffStrat opts) op rnd) := by
  have hf := reachable_frame h
  have e : Reset s = NewExponentialBackoffStrat opts := by
    cases s
    simp only [Reset, NewExponentialBackoffStrat] at hf ⊢
    simp only [hf.1, hf.2]
  exact ⟨e, rfl, rfl, rfl, rfl, fun T E _ fuel op rnd => by rw [e]⟩

/-- C5, concrete instance: the state left by an exhausted run with timeout `1000` and
bound `2` (depth `3`, timeout `2000`) is reset to the fresh state. -/
theorem C5_reset_restores_fresh_state_witness :
    Reset ⟨3, 1000, 2000, 2⟩ = NewExponentialBackoffStrat ⟨1000, some 2⟩ :=
  (C5_reset_restores_fresh_state ⟨1000, some 2⟩ ⟨3, 1000, 2000, 2⟩
    (Reachable.perform 3 (alwaysFails (0 : Nat)) (fun _ => 0)
      ⟨0, some (.errorsNew maxRetriesMsg), ⟨3, 1000, 2000, 2⟩, 2, [750, 750]⟩
      Reachable.fresh rfl)).1

/-! ## C6 -/

theorem loop_error_only_on_exhaustion {T E : Type} [Inhabited T] (op : Nat → T × Option E)
    (rnd : Nat → Int) :
    ∀ (fuel : Nat) (s : ExponentialBackoffStrat) (calls : Nat) (sleeps : List Int)
      (run : BackoffRun T E),
      PerformBackoff.loop op rnd fuel s calls sleeps = some (.ok run) →
      run.err = none ∨
        (exhausted run.strat = true ∧ run.res = GetZero T
          ∧ run.err = some (.errorsNew maxRetriesMsg)) := by
  intro fuel
  induction fuel with
  | zero => intro s calls sleeps run h; simp [PerformBackoff.loop] at h
  | succ fuel ih =>
    intro s calls sleeps run h
    cases hex : exhausted s with
    | true =>
      rw [loop_exhausted op rnd fuel s calls sleeps hex] at h
      injection h with h
      injection h with h
      subst h
      exact Or.inr ⟨hex, rfl, rfl⟩
    | false =>
      cases hop : (op calls).2 with
      | none =>
        rw [loop_success op rnd fuel s calls sleeps hex hop] at h
        injection h with h
        injection h with h
        subst h
        exact Or.inl rfl
      | some e =>
        rw [loop_failed op rnd fuel s calls sleeps hex (by simp [hop])] at h
        cases hfa : failedAttempt s (rnd calls) with
        | error p => rw [hfa] at h; simp at h
        | ok pr =>
          obtain ⟨next, slept⟩ := pr
          rw [hfa] at h
          exact ih next (calls + 1) (sleeps ++ [slept]) run h

/-- C6: whenever `PerformBackoff` returns an error, `maxRetries` is finite (not `-1`)
and the depth at the top of the loop, which is the depth it returns with, exceeds
`maxRetries`; the returned value is then the zero value of `T` and the error is the
fixed max-retries error, not an error of the operation. A strategy with unlimited
retries never returns an error. -/
theorem C6_error_only_on_exhaustion {T E : Type} [Inhabited T] (fuel : Nat)
    (s : ExponentialBackoffStrat) (op : Nat → T × Option E) (rnd : Nat → Int)
    (run : BackoffRun T E) (h : PerformBackoff fuel s op rnd = some (.ok run)) :
    (run.err ≠ none →
      s.maxRetries ≠ DefaultMaxRetries
      ∧ run.strat.maxRetries = s.maxRetries
      ∧ run.strat.depth > s.maxRetries
      ∧ run.res = GetZero T
      ∧ run.err = some (.errorsNew maxRetriesMsg)
      ∧ ∀ e : E, run.err ≠ some (.ofOperation e))
    ∧ (s.maxRetries = DefaultMaxRetries → run.err = none) := by
  have hfr := (loop_frame op rnd fuel s 0 [] run h).2
  have hmain := loop_error_only_on_exhaustion op rnd fuel s 0 [] run h
  constructor
  · intro hne
    rcases hmain with hnone | ⟨hex, hres, herr⟩
    · exact absurd hnone hne
    · rw [exhausted_iff] at hex
      refine ⟨by rw [← hfr]; exact hex.2, hfr, by rw [← hfr]; exact hex.1, hres, herr, ?_⟩
      intro e he
      rw [herr] at he
      cases he
  · intro hunl
    rcases hmain with hnone | ⟨hex, _, _⟩
    · exact hnone
    · rw [exhausted_iff] at hex
      exact absurd (hfr.trans hunl) hex.2

/-- C6, concrete instance: the exhausted run with timeout `1000` and bound `2`. -/
theorem C6_error_only_on_exhaustion_witness :
    PerformBackoff 3 (NewExponentialBackoffStrat ⟨1000, some 2⟩) (alwaysFails (0 : Nat))
        (fun _ => 0)
      = some (.ok ⟨0, some (.errorsNew maxRetriesMsg), ⟨3, 1000, 2000, 2⟩, 2, [750, 750]⟩)
    ∧ (2 : Int) ≠ DefaultMaxRetries ∧ (3 : Int) > 2 :=
  have h := C6_error_only_on_exhaustion 3 (NewExponentialBackoffStrat ⟨1000, some 2⟩)
    (alwaysFails (0 : Nat)) (fun _ => 0)
    ⟨0, some (.errorsNew maxRetriesMsg), ⟨3, 1000, 2000, 2⟩, 2, [750, 750]⟩ rfl
  ⟨rfl, (h.1 (by simp)).1, (h.1 (by simp)).2.2.1⟩

/-! ## C7 -/

/-- C7: in every strategy state that passes the exhaustion check (`maxRetries = -1` or
`depth <= maxRetries`), if the operation succeeds with `v` on its first invocation,
`PerformBackoff` returns `(v, nil)`, invokes the operation exactly once, sleeps not at
all, and leaves `depth`, `currentTimeout`, `initialTimeout` and `maxRetries` as they
were. -/
theorem C7_immediate_success_leaves_state {T E : Type} [Inhabited T] (fuel : Nat)
    (s : ExponentialBackoffStrat) (op : Nat → T × Option E) (rnd : Nat → Int) (v : T)
    (hpass : s.maxRetries = DefaultMaxRetries ∨ s.depth ≤ s.maxRetries)
    (hsucc : op 0 = (v, none)) :
    PerformBackoff (fuel + 1) s op rnd = some (.ok ⟨v, none, s, 1, []⟩) := by
  have hex : exhausted s = false := by
    cases hx : exhausted s with
    | false => rfl
    | true =>
      rw [exhausted_iff] at hx
      rcases hpass with h | h
      · exact absurd h hx.2
      · omega
  have hs : (op 0).2 = none := by simp [hsucc]
  rw [PerformBackoff, loop_success op rnd fuel s 0 [] hex hs]
  simp [hsucc]

/-- C7, concrete instance: a strategy left at depth `2` with timeout `1000` by an
earlier failure, bound `2`, operation succeeding with `7`. -/
theorem C7_immediate_success_leaves_state_witness :
    PerformBackoff (0 + 1) ⟨2, 1000, 1000, 2⟩ (failsThenSucceeds 0 (7 : Nat) 0) (fun _ => 0)
      = some (.ok ⟨7, none, ⟨2, 1000, 1000, 2⟩, 1, []⟩) :=
  C7_immediate_success_leaves_state 0 ⟨2, 1000, 1000, 2⟩ (failsThenSucceeds 0 (7 : Nat) 0)
    (fun _ => 0) 7 (Or.inr (by decide)) rfl

/-! ## C8 -/

theorem sinceReset_reachable {opts : ExpBackoffOpts} {n : Nat} {s : ExponentialBackoffStrat}
    (h : SinceReset opts n s) : Reachable opts s := by
  induction h with
  | fresh => exact Reachable.fresh
  | reset _ ih => exact Reachable.reset ih
  | failed _ hex hfa ih => exact Reachable.attempt ih hex hfa

theorem reset_eq_closedForm {opts : ExpBackoffOpts} {s : ExponentialBackoffStrat}
    (h : Reachable opts s) :
    Reset s = closedForm opts.TimeoutInNanosecs (NewExponentialBackoffStrat opts).maxRetries 0 := by
  have hf := reachable_frame h
  cases s
  simp only [Reset, closedForm, triangle] at hf ⊢
  simp [hf.1, hf.2]

theorem sinceReset_closedForm {opts : ExpBackoffOpts} (h0 : 0 ≤ opts.TimeoutInNanosecs)
    {n : Nat} {s : ExponentialBackoffStrat} (h : SinceReset opts n s) :
    opts.TimeoutInNanosecs * 2 ^ triangle n < 2 ^ 63 → (n : Int) + 1 < 2 ^ 63 →
    s = closedForm opts.TimeoutInNanosecs (NewExponentialBackoffStrat opts).maxRetries n := by
  induction h with
  | fresh =>
    intro _ _
    simp [NewExponentialBackoffStrat, closedForm, triangle]
  | reset hprev _ =>
    intro _ _
    exact reset_eq_closedForm (sinceReset_reachable hprev)
  | @failed n s next r slept _ _ hfa ih =>
    intro hov hn
    have hs := ih (lt_of_le_of_lt (timeout_mono h0 (Nat.le_succ n)) hov)
      (by push_cast at hn ⊢; omega)
    subst hs
    obtain ⟨slept2, hstep⟩ := failedAttempt_closedForm opts.TimeoutInNanosecs
      (NewExponentialBackoffStrat opts).maxRetries n r h0 hov (by push_cast at hn ⊢; omega)
    rw [hstep] at hfa
    injection hfa with hfa
    injection hfa with hfa _
    exact hfa.symm

theorem failedAttempt_zero_timeout {s next : ExponentialBackoffStrat} {r slept : Int}
    (hc : s.currentTimeout = 0) (h : failedAttempt s r = .ok (next, slept)) :
    next.currentTimeout = 0 := by
  unfold failedAttempt at h
  split at h
  · cases h
  · split at h
    · cases h
    · rename_i shifted hsh
      injection h with h
      injection h with h1 _
      subst h1
      simp only
      unfold shl64 at hsh
      rw [hc] at hsh
      split at hsh
      · cases hsh
      · split at hsh
        · injection hsh with hsh; exact hsh.symm
        · injection hsh with hsh
          rw [← hsh]
          simp [wrap64]

theorem sinceReset_zero_timeout {opts : ExpBackoffOpts} (h0 : opts.TimeoutInNanosecs = 0)
    {n : Nat} {s : ExponentialBackoffStrat} (h : SinceReset opts n s) :
    s.currentTimeout = 0 := by
  induction h with
  | fresh => simpa [NewExponentialBackoffStrat] using h0
  | reset hprev _ =>
    have hf := reachable_frame (sinceReset_reachable hprev)
    simp only [Reset]
    rw [hf.1, h0]
  | failed _ _ hfa ih => exact failedAttempt_zero_timeout ih hfa

theorem triangle_lt_63 {n : Nat} (h : triangle n < 63) : n < 12 := by
  by_contra hge
  have h12 : triangle 12 ≤ triangle n := triangle_mono (by omega)
  have : triangle 12 = 66 := by decide
  omega

/-- C8 (amended): for every strategy constructed with `initialTimeoutNanos = T0 >= 0`
and every state reached by `n` failed attempts since construction or the last `Reset`,
as long as no shift has overflowed (`T0 * 2 ^ (n (n - 1) / 2) < 2 ^ 63`), the timeout
is `currentTimeout = T0 * 2 ^ (n (n - 1) / 2)` and `currentTimeout >= initialTimeout`. -/
theorem C8_timeout_not_below_initial (opts : ExpBackoffOpts) (n : Nat)
    (s : ExponentialBackoffStrat) (h0 : 0 ≤ opts.TimeoutInNanosecs)
    (hov : opts.TimeoutInNanosecs * 2 ^ triangle n < 2 ^ 63) (h : SinceReset opts n s) :
    s.initialTimeout = opts.TimeoutInNanosecs
    ∧ s.currentTimeout = opts.TimeoutInNanosecs * 2 ^ triangle n
    ∧ s.currentTimeout ≥ s.initialTimeout := by
  have hinit := (reachable_frame (sinceReset_reachable h)).1
  have hcur : s.currentTimeout = opts.TimeoutInNanosecs * 2 ^ triangle n := by
    rcases eq_or_lt_of_le h0 with hz | hpos
    · rw [sinceReset_zero_timeout hz.symm h, ← hz, zero_mul]
    · have hp : (2 : Int) ^ triangle n < 2 ^ 63 := by
        have h1 : (1 : Int) ≤ opts.TimeoutInNanosecs := hpos
        have h2 : (0 : Int) < 2 ^ triangle n := by positivity
        nlinarith
      have ht : triangle n < 63 := by
        by_contra hge
        have : (2 : Int) ^ 63 ≤ 2 ^ triangle n :=
          pow_le_pow_right₀ (by norm_num) (by omega)
        omega
      have hn := triangle_lt_63 ht
      have hs := sinceReset_closedForm h0 h hov (by omega)
      rw [hs]
      rfl
  refine ⟨hinit, hcur, ?_⟩
  rw [hinit, hcur]
  have h2 : (1 : Int) ≤ 2 ^ triangle n := one_le_pow₀ (by norm_num)
  nlinarith

/-- C8, concrete instance: timeout `100`, three failed attempts, `currentTimeout = 800`. -/
theorem C8_timeout_not_below_initial_witness :
    (⟨4, 100, 800, -1⟩ : ExponentialBackoffStrat).currentTimeout = 100 * 2 ^ triangle 3
    ∧ (⟨4, 100, 800, -1⟩ : ExponentialBackoffStrat).currentTimeout
        ≥ (⟨4, 100, 800, -1⟩ : ExponentialBackoffStrat).initialTimeout :=
  have h1 : SinceReset ⟨100, none⟩ 1 ⟨2, 100, 100, -1⟩ :=
    @SinceReset.failed ⟨100, none⟩ 0 ⟨1, 100, 100, -1⟩ ⟨2, 100, 100, -1⟩ 0 75
      SinceReset.fresh (by rfl) (by rfl)
  have h2 : SinceReset ⟨100, none⟩ 2 ⟨3, 100, 200, -1⟩ :=
    @SinceReset.failed ⟨100, none⟩ 1 ⟨2, 100, 100, -1⟩ ⟨3, 100, 200, -1⟩ 0 75
      h1 (by rfl) (by rfl)
  have h3 : SinceReset ⟨100, none⟩ 3 ⟨4, 100, 800, -1⟩ :=
    @SinceReset.failed ⟨100, none⟩ 2 ⟨3, 100, 200, -1⟩ ⟨4, 100, 800, -1⟩ 0 150
      h2 (by rfl) (by rfl)
  (C8_timeout_not_below_initial ⟨100, none⟩ 3 ⟨4, 100, 800, -1⟩ (by decide) (by decide)
    h3).2

/-- C8 as written fails: with `initialTimeoutNanos = 1` the twelfth failed attempt
shifts `2 ^ 55` left by `11`, which Go evaluates to `0 < 1 = initialTimeout`; with
`initialTimeoutNanos = 2 ^ 62` the second failed attempt leaves `-2 ^ 63`. -/
theorem C8_counterexample :
    (PerformBackoff 13 (NewExponentialBackoffStrat ⟨1, none⟩)
        (failsThenSucceeds 12 (7 : Nat) 0) (fun _ => 0)).map (Except.map (·.strat))
      = some (.ok ⟨13, 1, 0, -1⟩)
    ∧ ¬ ((⟨13, 1, 0, -1⟩ : ExponentialBackoffStrat).currentTimeout
          ≥ (⟨13, 1, 0, -1⟩ : ExponentialBackoffStrat).initialTimeout)
    ∧ (PerformBackoff 3 (NewExponentialBackoffStrat ⟨2 ^ 62, none⟩)
        (failsThenSucceeds 2 (7 : Nat) 0) (fun _ => 0)).map (Except.map (·.strat))
      = some (.ok ⟨3, 2 ^ 62, -(2 ^ 63), -1⟩) :=
  ⟨rfl, by decide, rfl⟩

/-! ## C9 -/

theorem generateJitter_of_nonneg (s : ExponentialBackoffStrat) (r : Int)
    (hT : 0 ≤ s.currentTimeout) (hT2 : s.currentTimeout < 2 ^ 63)
    (hr0 : 0 ≤ r) (hr : r < 2 * (s.currentTimeout / 4) + 1) :
    generateJitter s r = .ok (r - s.currentTimeout / 4) := by
  have hj : ¬ wrap64 (2 * (s.currentTimeout / 4) + 1) ≤ 0 := by
    rw [wrap64_eq_self (by unfold isInt64; omega)]
    omega
  simp only [generateJitter, tdiv_four_of_nonneg hT, if_neg hj]
  rw [wrap64_eq_self (by unfold isInt64; omega)]

/-- C9: for every `currentTimeout = T` with `0 <= T` (a Go `int`, so `T < 2 ^ 63`) and
every value `r` that `rand.Intn(2 * (T / 4) + 1)` can return (`0 <= r < 2 * (T / 4) + 1`),
`generateJitter` returns `r - T / 4`, which lies in `[-T / 4, T / 4]`; and every integer
of that interval is the result for some such `r`. The division is Go's, which for
`T >= 0` is the floor. -/
theorem C9_jitter_range (s : ExponentialBackoffStrat)
    (hT : 0 ≤ s.currentTimeout) (hT2 : s.currentTimeout < 2 ^ 63) :
    Int.tdiv s.currentTimeout 4 = s.currentTimeout / 4
    ∧ (∀ r : Int, 0 ≤ r → r < 2 * Int.tdiv s.currentTimeout 4 + 1 →
        generateJitter s r = .ok (r - Int.tdiv s.currentTimeout 4)
        ∧ -(Int.tdiv s.currentTimeout 4) ≤ r - Int.tdiv s.currentTimeout 4
        ∧ r - Int.tdiv s.currentTimeout 4 ≤ Int.tdiv s.currentTimeout 4)
    ∧ (∀ j : Int, -(Int.tdiv s.currentTimeout 4) ≤ j → j ≤ Int.tdiv s.currentTimeout 4 →
        ∃ r : Int, 0 ≤ r ∧ r < 2 * Int.tdiv s.currentTimeout 4 + 1
          ∧ generateJitter s r = .ok j) := by
  rw [tdiv_four_of_nonneg hT]
  refine ⟨rfl, ?_, ?_⟩
  · intro r hr0 hr
    exact ⟨generateJitter_of_nonneg s r hT hT2 hr0 hr, by omega, by omega⟩
  · intro j hlo hhi
    refine ⟨j + s.currentTimeout / 4, by omega, by omega, ?_⟩
    rw [generateJitter_of_nonneg s _ hT hT2 (by omega) (by omega)]
    congr 1
    omega

/-- C9, concrete instance: `T = 1000`, so the jitter ranges over `[-250, 250]`; the
draw `r = 0` gives `-250`. -/
theorem C9_jitter_range_witness :
    generateJitter ⟨1, 1000, 1000, -1⟩ 0 = .ok (0 - Int.tdiv 1000 4) :=
  (((C9_jitter_range ⟨1, 1000, 1000, -1⟩ (by decide) (by decide)).2.1) 0
    (by decide) (by decide)).1

/-! ## C10 -/

/-- C10 (amended): for every `currentTimeout = T >= 0` with `T + T / 4 < 2 ^ 63` (the sum
fits a Go `int`) and every jitter `generateJitter` can produce for `T`, the duration
handed to the sleep by a failed attempt is `T + jitter` exactly; it lies between
`T - T / 4` and `T + T / 4` and is never negative. -/
theorem C10_sleep_nonneg (s : ExponentialBackoffStrat) (r : Int)
    (hd : 1 ≤ s.depth) (hd2 : s.depth < 2 ^ 63)
    (hT : 0 ≤ s.currentTimeout) (hfit : s.currentTimeout + s.currentTimeout / 4 < 2 ^ 63)
    (hr0 : 0 ≤ r) (hr : r < 2 * (s.currentTimeout / 4) + 1) :
    generateJitter s r = .ok (r - s.currentTimeout / 4)
    ∧ (∃ next, failedAttempt s r
        = .ok (next, s.currentTimeout + (r - s.currentTimeout / 4)))
    ∧ s.currentTimeout - s.currentTimeout / 4 ≤ s.currentTimeout + (r - s.currentTimeout / 4)
    ∧ s.currentTimeout + (r - s.currentTimeout / 4) ≤ s.currentTimeout + s.currentTimeout / 4
    ∧ 0 ≤ s.currentTimeout + (r - s.currentTimeout / 4) := by
  have hj := generateJitter_of_nonneg s r hT (by omega) hr0 hr
  have hfa : failedAttempt s r
      = .ok ({ depth := wrap64 (s.depth + 1), initialTimeout := s.initialTimeout,
               currentTimeout := wrap64 (s.currentTimeout * 2 ^ (s.depth - 1).toNat),
               maxRetries := s.maxRetries },
             s.currentTimeout + (r - s.currentTimeout / 4)) := by
    have hw : wrap64 (s.currentTimeout + (r - s.currentTimeout / 4))
        = s.currentTimeout + (r - s.currentTimeout / 4) :=
      wrap64_eq_self (by unfold isInt64; omega)
    simp only [failedAttempt, hj, shl64_depth s.currentTimeout s.depth hd hd2, hw]
  exact ⟨hj, ⟨_, hfa⟩, by omega, by omega, by omega⟩

/-- C10, concrete instance: `T = 1000`, draw `r = 0`: the sleep is `750`. -/
theorem C10_sleep_nonneg_witness :
    (0 : Int) ≤ 1000 + (0 - 1000 / 4) :=
  (C10_sleep_nonneg ⟨1, 1000, 1000, -1⟩ 0 (by decide) (by decide) (by decide) (by decide)
    (by decide) (by decide)).2.2.2.2

/-- C10 as written fails: for `T = 2 ^ 63 - 1` the draw `r = 2 ^ 62 - 2`, which
`rand.Intn(2 ^ 62 - 1)` can return, gives the jitter `2 ^ 61 - 1`, and
`currentTimeout + jitter` overflows the Go `int`: the duration handed to the sleep is
negative. -/
theorem C10_counterexample :
    (0 : Int) ≤ 2 ^ 62 - 2 ∧ (2 ^ 62 - 2 : Int) < 2 * Int.tdiv (2 ^ 63 - 1) 4 + 1
    ∧ generateJitter ⟨1, 2 ^ 63 - 1, 2 ^ 63 - 1, -1⟩ (2 ^ 62 - 2) = .ok (2 ^ 61 - 1)
    ∧ (PerformBackoff 2 (NewExponentialBackoffStrat ⟨2 ^ 63 - 1, none⟩)
        (failsThenSucceeds 1 (7 : Nat) 0) (fun _ => 2 ^ 62 - 2)).map (Except.map (·.sleeps))
      = some (.ok [-(2 ^ 63) + 2 ^ 61 - 2])
    ∧ (-(2 ^ 63) + 2 ^ 61 - 2 : Int) < 0 :=
  ⟨by decide, by decide, by rfl, by rfl, by decide⟩

/-! ## C11 -/

/-- C11: `PerformBackoff` (for every state, operation, jitter stream and fuel, at its
return and after every failed attempt inside the loop) and `Reset` leave `maxRetries`
and `initialTimeout` as they were; in every state reachable from a strategy built from
`opts` they are the values given at construction. -/
theorem C11_maxRetries_initialTimeout_immutable {T E : Type} [Inhabited T]
    (s : ExponentialBackoffStrat) (op : Nat → T × Option E) (rnd : Nat → Int) :
    (∀ (fuel : Nat) (run : BackoffRun T E), PerformBackoff fuel s op rnd = some (.ok run) →
        run.strat.maxRetries = s.maxRetries ∧ run.strat.initialTimeout = s.initialTimeout)
    ∧ (∀ (r slept : Int) (next : ExponentialBackoffStrat),
        failedAttempt s r = .ok (next, slept) →
        next.maxRetries = s.maxRetries ∧ next.initialTimeout = s.initialTimeout)
    ∧ (Reset s).maxRetries = s.maxRetries
    ∧ (Reset s).initialTimeout = s.initialTimeout
    ∧ (∀ opts : ExpBackoffOpts, Reachable opts s →
        s.maxRetries = (NewExponentialBackoffStrat opts).maxRetries
        ∧ s.initialTimeout = (NewExponentialBackoffStrat opts).initialTimeout) := by
  refine ⟨?_, ?_, rfl, rfl, ?_⟩
  · intro fuel run h
    have hf := loop_frame op rnd fuel s 0 [] run h
    exact ⟨hf.2, hf.1⟩
  · intro r slept next h
    have hf := failedAttempt_frame h
    exact ⟨hf.2, hf.1⟩
  · intro opts h
    have hf := reachable_frame h
    exact ⟨hf.2, hf.1⟩

/-! ## C13 -/

/-- C13: for every options value, `NewExponentialBackoffStrat` returns a strategy with
`depth = 1`, `initialTimeout = currentTimeout = opts.TimeoutInNanosecs`, and
`maxRetries = -1` (`DefaultMaxRetries`) when `opts.MaxRetries` is nil and
`maxRetries = *opts.MaxRetries` otherwise. -/
theorem C13_constructor (T0 m : Int) :
    NewExponentialBackoffStrat ⟨T0, none⟩ = ⟨1, T0, T0, -1⟩
    ∧ DefaultMaxRetries = -1
    ∧ NewExponentialBackoffStrat ⟨T0, some m⟩ = ⟨1, T0, T0, m⟩
    ∧ (∀ opts : ExpBackoffOpts,
        (NewExponentialBackoffStrat opts).depth = 1
        ∧ (NewExponentialBackoffStrat opts).initialTimeout = opts.TimeoutInNanosecs
        ∧ (NewExponentialBackoffStrat opts).currentTimeout = opts.TimeoutInNanosecs
        ∧ (opts.MaxRetries = none →
            (NewExponentialBackoffStrat opts).maxRetries = DefaultMaxRetries)
        ∧ (∀ k : Int, opts.MaxRetries = some k →
            (NewExponentialBackoffStrat opts).maxRetries = k)) := by
  refine ⟨rfl, rfl, rfl, ?_⟩
  intro opts
  refine ⟨rfl, rfl, rfl, ?_, ?_⟩
  · intro h
    simp [NewExponentialBackoffStrat, h]
  · intro k h
    simp [NewExponentialBackoffStrat, h]

/-! ## C14 -/

/-- C14: on a strategy freshly constructed with `maxRetries` explicitly `0`,
`PerformBackoff` with any operation returns the exhaustion failure (zero value of `T`
and the max-retries error) at once: the operation is never invoked, nothing is slept,
and the state, `depth` and `currentTimeout` included, is unchanged. One loop iteration
of fuel is enough. -/
theorem C14_zero_retries_exhausts_immediately {T E : Type} [Inhabited T] (T0 : Int)
    (op : Nat → T × Option E) (rnd : Nat → Int) (fuel : Nat) :
    PerformBackoff (fuel + 1) (NewExponentialBackoffStrat ⟨T0, some 0⟩) op rnd
      = some (.ok ⟨GetZero T, some (.errorsNew maxRetriesMsg),
          NewExponentialBackoffStrat ⟨T0, some 0⟩, 0, []⟩)
    ∧ NewExponentialBackoffStrat ⟨T0, some 0⟩ = ⟨1, T0, T0, 0⟩ := by
  refine ⟨?_, rfl⟩
  rw [PerformBackoff, loop_exhausted op rnd fuel _ 0 []]
  simp [exhausted, NewExponentialBackoffStrat, DefaultMaxRetries]

/-! ## C12 -/

theorem wrap64_wrap64_add (a b : Int) : wrap64 (wrap64 a + b) = wrap64 (a + b) := by
  unfold wrap64
  omega

theorem failedAttempt_depth {s next : ExponentialBackoffStrat} {r slept : Int}
    (h : failedAttempt s r = .ok (next, slept)) : next.depth = wrap64 (s.depth + 1) := by
  unfold failedAttempt at h
  split at h
  · cases h
  · split at h
    · cases h
    · injection h with h
      injection h with h1 _
      subst h1
      rfl

theorem loop_depth {T E : Type} [Inhabited T] (op : Nat → T × Option E) (rnd : Nat → Int) :
    ∀ (fuel : Nat) (s : ExponentialBackoffStrat) (calls : Nat) (sleeps : List Int)
      (run : BackoffRun T E), isInt64 s.depth →
      PerformBackoff.loop op rnd fuel s calls sleeps = some (.ok run) →
      ∃ n : Nat, (∀ i, i < n → (op (calls + i)).2 ≠ none)
        ∧ (run.calls = calls + n ∨ (run.calls = calls + n + 1 ∧ (op (calls + n)).2 = none))
        ∧ run.sleeps.length = sleeps.length + n
        ∧ run.strat.depth = wrap64 (s.depth + n) := by
  intro fuel
  induction fuel with
  | zero => intro s calls sleeps run _ h; simp [PerformBackoff.loop] at h
  | succ fuel ih =>
    intro s calls sleeps run hd h
    cases hex : exhausted s with
    | true =>
      rw [loop_exhausted op rnd fuel s calls sleeps hex] at h
      injection h with h
      injection h with h
      subst h
      exact ⟨0, fun i hi => absurd hi (Nat.not_lt_zero i), Or.inl rfl, rfl,
        by simp [wrap64_eq_self hd]⟩
    | false =>
      cases hop : (op calls).2 with
      | none =>
        rw [loop_success op rnd fuel s calls sleeps hex hop] at h
        injection h with h
        injection h with h
        subst h
        exact ⟨0, fun i hi => absurd hi (Nat.not_lt_zero i), Or.inr ⟨rfl, hop⟩, rfl,
          by simp [wrap64_eq_self hd]⟩
      | some e =>
        rw [loop_failed op rnd fuel s calls sleeps hex (by simp [hop])] at h
        cases hfa : failedAttempt s (rnd calls) with
        | error p => rw [hfa] at h; simp at h
        | ok pr =>
          obtain ⟨next, slept⟩ := pr
          rw [hfa] at h
          have hnd := failedAttempt_depth hfa
          obtain ⟨n, hfail, hcalls, hlen, hdep⟩ :=
            ih next (calls + 1) (sleeps ++ [slept]) run (by rw [hnd]; exact wrap64_isInt64 _) h
          refine ⟨n + 1, ?_, ?_, ?_, ?_⟩
          · intro i hi
            cases i with
            | zero => simp [hop]
            | succ i =>
              have := hfail i (by omega)
              rwa [show calls + 1 + i = calls + (i + 1) by omega] at this
          · rcases hcalls with hc | ⟨hc, hs⟩
            · exact Or.inl (by omega)
            · refine Or.inr ⟨by omega, ?_⟩
              rwa [show calls + 1 + n = calls + (n + 1) by omega] at hs
          · rw [hlen]; simp; omega
          · rw [hdep, hnd, wrap64_wrap64_add]
            congr 1
            push_cast
            omega

theorem sinceReset_depth {opts : ExpBackoffOpts} {n : Nat} {s : ExponentialBackoffStrat}
    (h : SinceReset opts n s) : s.depth = wrap64 ((n : Int) + 1) := by
  induction h with
  | fresh => rfl
  | reset _ _ => rfl
  | @failed n s next r slept _ _ hfa ih =>
    rw [failedAttempt_depth hfa, ih, wrap64_wrap64_add]
    congr 1

/-- C12: for every strategy state with depth `d0 >= 1` and every run of `PerformBackoff`
that returns, the run made `n` failed invocations (invocations `1..n` failed, and the one
after them, if made, succeeded), slept `n` times, and the final depth is `d0 + n` in Go
`int` arithmetic, which is `d0 + n` itself whenever that fits the `int`; so the depth does
not decrease and stays `>= 1`. Each failed attempt steps the depth by exactly one, and
after `n` failed attempts since construction or the last `Reset` the depth is `n + 1`. -/
theorem C12_depth_counts_failed_attempts {T E : Type} [Inhabited T] (fuel : Nat)
    (s : ExponentialBackoffStrat) (op : Nat → T × Option E) (rnd : Nat → Int)
    (run : BackoffRun T E) (hd : 1 ≤ s.depth) (hd2 : s.depth < 2 ^ 63)
    (h : PerformBackoff fuel s op rnd = some (.ok run)) :
    (∃ n : Nat, (∀ i, i < n → (op i).2 ≠ none)
      ∧ (run.calls = n ∨ (run.calls = n + 1 ∧ (op n).2 = none))
      ∧ run.sleeps.length = n
      ∧ run.strat.depth = wrap64 (s.depth + n)
      ∧ (s.depth + n < 2 ^ 63 →
          run.strat.depth = s.depth + n ∧ s.depth ≤ run.strat.depth ∧ 1 ≤ run.strat.depth))
    ∧ (∀ (st next : ExponentialBackoffStrat) (r slept : Int),
        failedAttempt st r = .ok (next, slept) →
        next.depth = wrap64 (st.depth + 1)
        ∧ (isInt64 (st.depth + 1) → next.depth = st.depth + 1))
    ∧ (∀ (opts : ExpBackoffOpts) (m : Nat) (st : ExponentialBackoffStrat),
        SinceReset opts m st → (m : Int) + 1 < 2 ^ 63 →
        st.depth = (m : Int) + 1 ∧ 1 ≤ st.depth) := by
  refine ⟨?_, ?_, ?_⟩
  · obtain ⟨n, hfail, hcalls, hlen, hdep⟩ :=
      loop_depth op rnd fuel s 0 [] run (by unfold isInt64; omega) h
    refine ⟨n, ?_, ?_, by simpa using hlen, hdep, ?_⟩
    · intro i hi
      simpa using hfail i hi
    · simpa using hcalls
    · intro hfit
      have e : run.strat.depth = s.depth + n := by
        rw [hdep, wrap64_eq_self (by unfold isInt64; omega)]
      exact ⟨e, by omega, by omega⟩
  · intro st next r slept hfa
    have hnd := failedAttempt_depth hfa
    exact ⟨hnd, fun hfit => by rw [hnd, wrap64_eq_self hfit]⟩
  · intro opts m st hst hm
    have e : st.depth = (m : Int) + 1 := by
      rw [sinceReset_depth hst, wrap64_eq_self (by unfold isInt64; omega)]
    exact ⟨e, by omega⟩

/-- C12, concrete instance: from depth `2`, two failures and then a success: the run
returns with depth `4`. -/
theorem C12_depth_counts_failed_attempts_witness :
    ∃ n : Nat, (∀ i, i < n → (failsThenSucceeds 2 (7 : Nat) 0 i).2 ≠ none)
      ∧ ((3 : Nat) = n ∨ ((3 : Nat) = n + 1 ∧ (failsThenSucceeds 2 (7 : Nat) 0 n).2 = none))
      ∧ ([75, 150] : List Int).length = n
      ∧ (4 : Int) = wrap64 (2 + n)
      ∧ ((2 : Int) + n < 2 ^ 63 → (4 : Int) = 2 + n ∧ (2 : Int) ≤ 4 ∧ (1 : Int) ≤ 4) :=
  (C12_depth_counts_failed_attempts 3 ⟨2, 100, 100, -1⟩ (failsThenSucceeds 2 (7 : Nat) 0)
    (fun _ => 0) ⟨7, none, ⟨4, 100, 800, -1⟩, 3, [75, 150]⟩ (by decide) (by decide)
    (by rfl)).1

/-! ## C15 -/

theorem sinceReset_small {opts : ExpBackoffOpts} (hpos : 0 < opts.TimeoutInNanosecs) {n : Nat}
    (hov : opts.TimeoutInNanosecs * 2 ^ triangle n < 2 ^ 63) : n < 12 := by
  have hp : (2 : Int) ^ triangle n < 2 ^ 63 := by
    have h1 : (1 : Int) ≤ opts.TimeoutInNanosecs := hpos
    have h2 : (0 : Int) < 2 ^ triangle n := by positivity
    nlinarith
  have ht : triangle n < 63 := by
    by_contra hge
    have : (2 : Int) ^ 63 ≤ 2 ^ triangle n :=
      pow_le_pow_right₀ (by norm_num) (by omega)
    omega
  exact triangle_lt_63 ht

theorem sinceReset_timeout {opts : ExpBackoffOpts} (h0 : 0 ≤ opts.TimeoutInNanosecs)
    {n : Nat} {s : ExponentialBackoffStrat}
    (hov : opts.TimeoutInNanosecs * 2 ^ triangle n < 2 ^ 63) (h : SinceReset opts n s) :
    s.currentTimeout = opts.TimeoutInNanosecs * 2 ^ triangle n := by
  rcases eq_or_lt_of_le h0 with hz | hpos
  · rw [sinceReset_zero_timeout hz.symm h, ← hz, zero_mul]
  · have hn := sinceReset_small hpos hov
    rw [sinceReset_closedForm h0 h hov (by omega)]
    rfl

theorem generateJitter_nonneg_timeout (s : ExponentialBackoffStrat) (r : Int)
    (hT : 0 ≤ s.currentTimeout) (hT2 : s.currentTimeout < 2 ^ 63) :
    generateJitter s r = .ok (wrap64 (r - s.currentTimeout / 4)) := by
  have hj : ¬ wrap64 (2 * (s.currentTimeout / 4) + 1) ≤ 0 := by
    rw [wrap64_eq_self (by unfold isInt64; omega)]
    omega
  simp only [generateJitter, tdiv_four_of_nonneg hT, if_neg hj]

theorem failedAttempt_slept {s next : ExponentialBackoffStrat} {r slept : Int}
    (hT : 0 ≤ s.currentTimeout) (hT2 : s.currentTimeout < 2 ^ 63)
    (h : failedAttempt s r = .ok (next, slept)) :
    slept = wrap64 (s.currentTimeout + wrap64 (r - s.currentTimeout / 4)) := by
  unfold failedAttempt at h
  rw [generateJitter_nonneg_timeout s r hT hT2] at h
  simp only at h
  split at h
  · cases h
  · injection h with h
    injection h with _ h2
    exact h2.symm

/-- C15: for every strategy freshly constructed (or reset) with `initialTimeout = T0 >= 0`
and every `n` such that `T0 * 2 ^ (n (n - 1) / 2)` fits a signed 64-bit `int`, after `n`
consecutive failed attempts the state has `currentTimeout = T0 * 2 ^ (n (n - 1) / 2)` and
depth `n + 1` (Go's `n + 1`; exactly `n + 1` whenever `T0 >= 1` or `n + 1` fits the
`int`). The next delay, the `(n + 1)`-th, is that timeout plus its jitter; so delays one
and two both start from `T0` (exponents `0, 0, 1, 3, ...`), and the exponent grows by `n`
at the `n + 1`-th failure instead of by one. -/
theorem C15_timeout_closed_form (opts : ExpBackoffOpts) (n : Nat) (s : ExponentialBackoffStrat)
    (h0 : 0 ≤ opts.TimeoutInNanosecs)
    (hov : opts.TimeoutInNanosecs * 2 ^ triangle n < 2 ^ 63) (h : SinceReset opts n s) :
    s.currentTimeout = opts.TimeoutInNanosecs * 2 ^ (n * (n - 1) / 2)
    ∧ s.depth = wrap64 ((n : Int) + 1)
    ∧ (1 ≤ opts.TimeoutInNanosecs ∨ (n : Int) + 1 < 2 ^ 63 → s.depth = (n : Int) + 1)
    ∧ (∀ (r slept : Int) (next : ExponentialBackoffStrat),
        failedAttempt s r = .ok (next, slept) →
        slept = wrap64 (opts.TimeoutInNanosecs * 2 ^ (n * (n - 1) / 2)
                  + wrap64 (r - opts.TimeoutInNanosecs * 2 ^ (n * (n - 1) / 2) / 4)))
    ∧ triangle 0 = 0 ∧ triangle 1 = 0 ∧ triangle 2 = 1 ∧ triangle 3 = 3
    ∧ triangle (n + 1) = triangle n + n := by
  have hcur := sinceReset_timeout h0 hov h
  have hdep := sinceReset_depth h
  have hnn := timeout_nonneg h0 n
  refine ⟨hcur, hdep, ?_, ?_, rfl, rfl, rfl, rfl, triangle_succ n⟩
  · intro hcase
    have hn : (n : Int) + 1 < 2 ^ 63 := by
      rcases hcase with hpos | hn
      · have := sinceReset_small (lt_of_lt_of_le (by decide) hpos) hov
        omega
      · exact hn
    rw [hdep, wrap64_eq_self (by unfold isInt64; omega)]
  · intro r slept next hfa
    have := failedAttempt_slept (by rw [hcur]; exact hnn) (by rw [hcur]; exact hov) hfa
    rw [hcur] at this
    exact this

/-- C15, concrete instance: timeout `100`, three failed attempts: depth `4`, timeout
`100 * 2 ^ 3 = 800`. -/
theorem C15_timeout_closed_form_witness :
    (⟨4, 100, 800, -1⟩ : ExponentialBackoffStrat).currentTimeout = 100 * 2 ^ (3 * (3 - 1) / 2) :=
  have h1 : SinceReset ⟨100, none⟩ 1 ⟨2, 100, 100, -1⟩ :=
    @SinceReset.failed ⟨100, none⟩ 0 ⟨1, 100, 100, -1⟩ ⟨2, 100, 100, -1⟩ 0 75
      SinceReset.fresh (by rfl) (by rfl)
  have h2 : SinceReset ⟨100, none⟩ 2 ⟨3, 100, 200, -1⟩ :=
    @SinceReset.failed ⟨100, none⟩ 1 ⟨2, 100, 100, -1⟩ ⟨3, 100, 200, -1⟩ 0 75
      h1 (by rfl) (by rfl)
  have h3 : SinceReset ⟨100, none⟩ 3 ⟨4, 100, 800, -1⟩ :=
    @SinceReset.failed ⟨100, none⟩ 2 ⟨3, 100, 200, -1⟩ ⟨4, 100, 800, -1⟩ 0 150
      h2 (by rfl) (by rfl)
  (C15_timeout_closed_form ⟨100, none⟩ 3 ⟨4, 100, 800, -1⟩ (by decide) (by decide) h3).1

/-! ## C16 -/

theorem loop_bounded {T E : Type} [Inhabited T] (op : Nat → T × Option E) (rnd : Nat → Int) :
    ∀ (fuel : Nat) (s : ExponentialBackoffStrat) (calls : Nat) (sleeps : List Int),
      0 ≤ s.maxRetries → s.maxRetries + 1 < 2 ^ 63 → -(2 ^ 63) ≤ s.depth →
      (attemptsLeft s < fuel → PerformBackoff.loop op rnd fuel s calls sleeps ≠ none)
      ∧ (∀ run : BackoffRun T E,
          PerformBackoff.loop op rnd fuel s calls sleeps = some (.ok run) →
          run.calls ≤ calls + attemptsLeft s)
      ∧ (∀ p : GoPanic,
          PerformBackoff.loop op rnd fuel s calls sleeps = some (.error p) →
          ∃ f : Nat, f ≤ attemptsLeft s
            ∧ PerformBackoff.loop op rnd f s calls sleeps = some (.error p)) := by
  intro fuel
  induction fuel with
  | zero =>
    intro s calls sleeps _ _ _
    refine ⟨fun h => absurd h (Nat.not_lt_zero _), ?_, ?_⟩
    · intro run h; simp [PerformBackoff.loop] at h
    · intro p h; simp [PerformBackoff.loop] at h
  | succ fuel ih =>
    intro s calls sleeps hk0 hk hd
    cases hex : exhausted s with
    | true =>
      rw [loop_exhausted op rnd fuel s calls sleeps hex]
      refine ⟨fun _ => by simp, ?_, ?_⟩
      · intro run h
        injection h with h
        injection h with h
        subst h
        exact Nat.le_add_right _ _
      · intro p h
        injection h with h
        cases h
    | false =>
      have hle : s.depth ≤ s.maxRetries := by
        by_contra hgt
        have : exhausted s = true := by
          rw [exhausted_iff]
          exact ⟨by omega, by simp only [DefaultMaxRetries]; omega⟩
        rw [hex] at this
        cases this
      have hB : attemptsLeft s = (s.maxRetries - s.depth).toNat + 1 := by
        unfold attemptsLeft
        omega
      cases hop : (op calls).2 with
      | none =>
        rw [loop_success op rnd fuel s calls sleeps hex hop]
        refine ⟨fun _ => by simp, ?_, ?_⟩
        · intro run h
          injection h with h
          injection h with h
          subst h
          simp only
          omega
        · intro p h
          injection h with h
          cases h
      | some e =>
        have hop2 : (op calls).2 ≠ none := by simp [hop]
        rw [loop_failed op rnd fuel s calls sleeps hex hop2]
        cases hfa : failedAttempt s (rnd calls) with
        | error p =>
          refine ⟨fun _ => by simp, ?_, ?_⟩
          · intro run h; simp at h
          · intro q h
            refine ⟨1, by omega, ?_⟩
            rw [loop_failed op rnd 0 s calls sleeps hex hop2, hfa]
            exact h
        | ok pr =>
          obtain ⟨next, slept⟩ := pr
          have hnd : next.depth = s.depth + 1 := by
            rw [failedAttempt_depth hfa, wrap64_eq_self (by unfold isInt64; omega)]
          have hnm := (failedAttempt_frame hfa).2
          have hBn : attemptsLeft next = (s.maxRetries - s.depth).toNat := by
            unfold attemptsLeft
            rw [hnd, hnm]
            congr 1
            omega
          obtain ⟨ih1, ih2, ih3⟩ := ih next (calls + 1) (sleeps ++ [slept])
            (by rw [hnm]; exact hk0) (by rw [hnm]; exact hk) (by omega)
          simp only
          refine ⟨fun hf => ih1 (by omega), ?_, ?_⟩
          · intro run h
            have := ih2 run h
            omega
          · intro q h
            obtain ⟨f, hf, hrun⟩ := ih3 q h
            refine ⟨f + 1, by omega, ?_⟩
            rw [loop_failed op rnd f s calls sleeps hex hop2, hfa]
            exact hrun

/-- C16: for every strategy whose `maxRetries` is a non-negative `k` (with `k + 1` still a
Go `int`, so that the depth can exceed `k`) and whose depth is `d >= 1`, and for every
operation, `PerformBackoff` terminates within `max(0, k - d + 1) + 1` loop iterations and
invokes the operation at most `max(0, k - d + 1)` times: a run that returns has made at
most that many invocations, and a run that panics does so within that many iterations.
For a fresh strategy the bound is `k`. -/
theorem C16_attempts_bounded {T E : Type} [Inhabited T] (s : ExponentialBackoffStrat)
    (op : Nat → T × Option E) (rnd : Nat → Int)
    (hk0 : 0 ≤ s.maxRetries) (hk : s.maxRetries + 1 < 2 ^ 63) (hd : 1 ≤ s.depth) :
    attemptsLeft s = (max 0 (s.maxRetries - s.depth + 1)).toNat
    ∧ (∀ fuel : Nat, attemptsLeft s < fuel → PerformBackoff fuel s op rnd ≠ none)
    ∧ (∀ (fuel : Nat) (run : BackoffRun T E),
        PerformBackoff fuel s op rnd = some (.ok run) → run.calls ≤ attemptsLeft s)
    ∧ (∀ (fuel : Nat) (p : GoPanic), PerformBackoff fuel s op rnd = some (.error p) →
        ∃ f : Nat, f ≤ attemptsLeft s ∧ PerformBackoff f s op rnd = some (.error p))
    ∧ (s.depth = 1 → attemptsLeft s = s.maxRetries.toNat) := by
  refine ⟨?_, ?_, ?_, ?_, ?_⟩
  · unfold attemptsLeft
    omega
  · intro fuel hf
    exact (loop_bounded op rnd fuel s 0 [] hk0 hk (by omega)).1 hf
  · intro fuel run h
    have := (loop_bounded op rnd fuel s 0 [] hk0 hk (by omega)).2.1 run h
    omega
  · intro fuel p h
    exact (loop_bounded op rnd fuel s 0 [] hk0 hk (by omega)).2.2 p h
  · intro h1
    unfold attemptsLeft
    omega

/-- C16, concrete instance: a fresh strategy with bound `2` and an operation that never
succeeds: the run returns after `2` invocations. -/
theorem C16_attempts_bounded_witness :
    (2 : Nat) ≤ attemptsLeft (NewExponentialBackoffStrat ⟨1000, some 2⟩)
    ∧ attemptsLeft (NewExponentialBackoffStrat ⟨1000, some 2⟩) = 2 :=
  have h := C16_attempts_bounded (NewExponentialBackoffStrat ⟨1000, some 2⟩)
    (alwaysFails (0 : Nat)) (fun _ => 0) (by decide) (by decide) (by decide)
  ⟨h.2.2.1 3 ⟨0, some (.errorsNew maxRetriesMsg), ⟨3, 1000, 2000, 2⟩, 2, [750, 750]⟩
      (by rfl), by rfl⟩

/-! ## C17 -/

/-- C17: once `PerformBackoff` has returned the exhaustion failure on a strategy, its
`maxRetries` is finite and every further `PerformBackoff` call on the state it left, with
any operation, any result type and any positive fuel, returns the exhaustion failure
again with no invocation of the operation, no sleep and the state unchanged (so the same
holds for the call after that one); `Reset` is what puts the depth back to `1`. -/
theorem C17_exhaustion_is_sticky {T E : Type} [Inhabited T] (fuel : Nat)
    (s : ExponentialBackoffStrat) (op : Nat → T × Option E) (rnd : Nat → Int)
    (run : BackoffRun T E) (h : PerformBackoff fuel s op rnd = some (.ok run))
    (herr : run.err ≠ none) :
    run.strat.maxRetries ≠ DefaultMaxRetries
    ∧ (∀ (T2 E2 : Type) [Inhabited T2] (fuel2 : Nat) (op2 : Nat → T2 × Option E2)
        (rnd2 : Nat → Int),
        PerformBackoff (fuel2 + 1) run.strat op2 rnd2
          = some (.ok ⟨GetZero T2, some (.errorsNew maxRetriesMsg), run.strat, 0, []⟩))
    ∧ (Reset run.strat).depth = 1 := by
  have hx : exhausted run.strat = true := by
    rcases loop_error_only_on_exhaustion op rnd fuel s 0 [] run h with hnone | ⟨hex, _, _⟩
    · exact absurd hnone herr
    · exact hex
  refine ⟨((exhausted_iff _).1 hx).2, ?_, rfl⟩
  intro T2 E2 _ fuel2 op2 rnd2
  rw [PerformBackoff, loop_exhausted op2 rnd2 fuel2 run.strat 0 [] hx]

/-- C17, concrete instance: after the exhausted run with timeout `1000` and bound `2`, a
call with an operation that would succeed at once returns the exhaustion failure. -/
theorem C17_exhaustion_is_sticky_witness :
    PerformBackoff (0 + 1) ⟨3, 1000, 2000, 2⟩ (failsThenSucceeds 0 (7 : Nat) 0) (fun _ => 0)
      = some (.ok ⟨GetZero Nat, some (.errorsNew maxRetriesMsg), ⟨3, 1000, 2000, 2⟩, 0, []⟩) :=
  (C17_exhaustion_is_sticky 3 (NewExponentialBackoffStrat ⟨1000, some 2⟩)
    (alwaysFails (0 : Nat)) (fun _ => 0)
    ⟨0, some (.errorsNew maxRetriesMsg), ⟨3, 1000, 2000, 2⟩, 2, [750, 750]⟩ (by rfl)
    (by simp)).2.1 Nat Unit 0 (failsThenSucceeds 0 (7 : Nat) 0) (fun _ => 0)

/-! ## C18 -/

theorem failedAttempt_jitter_free (s : ExponentialBackoffStrat) (r1 r2 : Int) :
    (failedAttempt s r1).map Prod.fst = (failedAttempt s r2).map Prod.fst := by
  unfold failedAttempt generateJitter
  by_cases hc : wrap64 (2 * Int.tdiv s.currentTimeout 4 + 1) ≤ 0
  · simp only [if_pos hc]
  · simp only [if_neg hc]
    cases shl64 s.currentTimeout (wrap64 (s.depth - 1)) with
    | error p => rfl
    | ok shifted => rfl

theorem loop_jitter_free {T E : Type} [Inhabited T] (op : Nat → T × Option E)
    (rnd1 rnd2 : Nat → Int) :
    ∀ (fuel : Nat) (s : ExponentialBackoffStrat) (calls : Nat) (sl1 sl2 : List Int),
      sl1.length = sl2.length →
      (PerformBackoff.loop op rnd1 fuel s calls sl1).map (Except.map BackoffRun.observable)
        = (PerformBackoff.loop op rnd2 fuel s calls sl2).map
            (Except.map BackoffRun.observable) := by
  intro fuel
  induction fuel with
  | zero => intro s calls sl1 sl2 _; rfl
  | succ fuel ih =>
    intro s calls sl1 sl2 hlen
    cases hex : exhausted s with
    | true =>
      rw [loop_exhausted op rnd1 fuel s calls sl1 hex,
        loop_exhausted op rnd2 fuel s calls sl2 hex]
      simp [Except.map, BackoffRun.observable, hlen]
    | false =>
      cases hop : (op calls).2 with
      | none =>
        rw [loop_success op rnd1 fuel s calls sl1 hex hop,
          loop_success op rnd2 fuel s calls sl2 hex hop]
        simp [Except.map, BackoffRun.observable, hlen]
      | some e =>
        have hop2 : (op calls).2 ≠ none := by simp [hop]
        rw [loop_failed op rnd1 fuel s calls sl1 hex hop2,
          loop_failed op rnd2 fuel s calls sl2 hex hop2]
        have hfree := failedAttempt_jitter_free s (rnd1 calls) (rnd2 calls)
        cases hfa1 : failedAttempt s (rnd1 calls) with
        | error p =>
          cases hfa2 : failedAttempt s (rnd2 calls) with
          | error q =>
            rw [hfa1, hfa2] at hfree
            simp only [Except.map] at hfree
            injection hfree with hpq
            subst hpq
            rfl
          | ok pr2 =>
            rw [hfa1, hfa2] at hfree
            simp [Except.map] at hfree
        | ok pr1 =>
          cases hfa2 : failedAttempt s (rnd2 calls) with
          | error q =>
            rw [hfa1, hfa2] at hfree
            simp [Except.map] at hfree
          | ok pr2 =>
            obtain ⟨next1, slept1⟩ := pr1
            obtain ⟨next2, slept2⟩ := pr2
            rw [hfa1, hfa2] at hfree
            simp only [Except.map] at hfree
            injection hfree with hnext
            subst hnext
            exact ih next1 (calls + 1) (sl1 ++ [slept1]) (sl2 ++ [slept2]) (by simp [hlen])

/-- C18: for every strategy state, every sequence of operation outcomes and every fuel,
two runs of `PerformBackoff` that differ only in the jitter samples drawn (whatever
values `rand.Intn` hands back) agree on everything but the sleep durations: both run out
of fuel, or both panic with the same panic, or both return the same value and error after
the same number of invocations and sleeps and end in the same state (`depth` and
`currentTimeout` included). -/
theorem C18_jitter_affects_only_sleeps {T E : Type} [Inhabited T] (fuel : Nat)
    (s : ExponentialBackoffStrat) (op : Nat → T × Option E) (rnd1 rnd2 : Nat → Int) :
    (PerformBackoff fuel s op rnd1).map (Except.map BackoffRun.observable)
      = (PerformBackoff fuel s op rnd2).map (Except.map BackoffRun.observable) :=
  loop_jitter_free op rnd1 rnd2 fuel s 0 [] [] rfl

/-! ## C19 -/

theorem failedAttempt_sinceReset_ok {opts : ExpBackoffOpts} (h0 : 0 ≤ opts.TimeoutInNanosecs)
    {n : Nat} {s : ExponentialBackoffStrat}
    (hov : opts.TimeoutInNanosecs * 2 ^ triangle n < 2 ^ 63) (hn : (n : Int) + 1 < 2 ^ 63)
    (h : SinceReset opts n s) (r : Int) :
    0 ≤ wrap64 (s.depth - 1)
    ∧ 1 ≤ wrap64 (2 * Int.tdiv s.currentTimeout 4 + 1)
    ∧ ∃ (next : ExponentialBackoffStrat) (slept : Int), failedAttempt s r = .ok (next, slept) := by
  have hcur := sinceReset_timeout h0 hov h
  have hdep : s.depth = (n : Int) + 1 := by
    rw [sinceReset_depth h, wrap64_eq_self (by unfold isInt64; omega)]
  have hnn := timeout_nonneg h0 n
  have hc0 : 0 ≤ s.currentTimeout := by rw [hcur]; exact hnn
  have hc1 : s.currentTimeout < 2 ^ 63 := by rw [hcur]; exact hov
  have hw1 : wrap64 (s.depth - 1) = s.depth - 1 := wrap64_eq_self (by unfold isInt64; omega)
  have hw2 : wrap64 (2 * (s.currentTimeout / 4) + 1) = 2 * (s.currentTimeout / 4) + 1 :=
    wrap64_eq_self (by unfold isInt64; omega)
  have hfa : failedAttempt s r
      = .ok ({ depth := wrap64 (s.depth + 1), initialTimeout := s.initialTimeout,
               currentTimeout := wrap64 (s.currentTimeout * 2 ^ (s.depth - 1).toNat),
               maxRetries := s.maxRetries },
             wrap64 (s.currentTimeout + wrap64 (r - s.currentTimeout / 4))) := by
    simp only [failedAttempt, generateJitter_nonneg_timeout s r hc0 hc1,
      shl64_depth s.currentTimeout s.depth (by omega) (by omega)]
  refine ⟨by rw [hw1]; omega, ?_, ⟨_, _, hfa⟩⟩
  rw [tdiv_four_of_nonneg hc0, hw2]
  omega

theorem loop_no_panic {T E : Type} [Inhabited T] (op : Nat → T × Option E) (rnd : Nat → Int)
    (opts : ExpBackoffOpts) (h0 : 0 ≤ opts.TimeoutInNanosecs) :
    ∀ (fuel n : Nat) (s : ExponentialBackoffStrat) (calls : Nat) (sleeps : List Int),
      SinceReset opts n s →
      (∀ j, j < fuel → opts.TimeoutInNanosecs * 2 ^ triangle (n + j) < 2 ^ 63) →
      ((n + fuel : Nat) : Int) < 2 ^ 63 →
      ∀ p : GoPanic, PerformBackoff.loop op rnd fuel s calls sleeps ≠ some (.error p) := by
  intro fuel
  induction fuel with
  | zero =>
    intro n s calls sleeps _ _ _ p h
    simp [PerformBackoff.loop] at h
  | succ fuel ih =>
    intro n s calls sleeps hs hov hn p
    cases hex : exhausted s with
    | true =>
      rw [loop_exhausted op rnd fuel s calls sleeps hex]
      intro h
      injection h with h
      cases h
    | false =>
      cases hop : (op calls).2 with
      | none =>
        rw [loop_success op rnd fuel s calls sleeps hex hop]
        intro h
        injection h with h
        cases h
      | some e =>
        rw [loop_failed op rnd fuel s calls sleeps hex (by simp [hop])]
        obtain ⟨_, _, next, slept, hfa⟩ := failedAttempt_sinceReset_ok h0
          (by simpa using hov 0 (Nat.succ_pos fuel)) (by push_cast at hn ⊢; omega) hs (rnd calls)
        rw [hfa]
        exact ih (n + 1) next (calls + 1) (sleeps ++ [slept]) (SinceReset.failed hs hex hfa)
          (fun j hj => by
            have := hov (j + 1) (by omega)
            rwa [show n + (j + 1) = n + 1 + j by omega] at this)
          (by rw [show n + 1 + fuel = n + (fuel + 1) by omega]; exact hn) p

/-- C19 (amended): for every strategy constructed with `initialTimeoutNanos = T0 >= 0`, a
failed attempt made after `n` failed attempts since construction or the last `Reset`
reaches no panicking step as long as the timeout has not overflowed
(`T0 * 2 ^ (n (n - 1) / 2) < 2 ^ 63`, and `n + 1` a Go `int`): the shift count `depth - 1`
is non-negative, the argument `2 * (currentTimeout / 4) + 1` of `rand.Intn` is at least
`1`, and the attempt runs to its end. Hence a run of `PerformBackoff` on the fresh
strategy does not panic within its first `m` loop iterations when
`T0 * 2 ^ ((m - 1) (m - 2) / 2) < 2 ^ 63`. -/
theorem C19_no_panic_without_overflow {T E : Type} [Inhabited T] (opts : ExpBackoffOpts)
    (h0 : 0 ≤ opts.TimeoutInNanosecs) :
    (∀ (n : Nat) (s : ExponentialBackoffStrat) (r : Int), SinceReset opts n s →
        opts.TimeoutInNanosecs * 2 ^ triangle n < 2 ^ 63 → (n : Int) + 1 < 2 ^ 63 →
        0 ≤ wrap64 (s.depth - 1)
        ∧ 1 ≤ wrap64 (2 * Int.tdiv s.currentTimeout 4 + 1)
        ∧ ∃ (next : ExponentialBackoffStrat) (slept : Int),
            failedAttempt s r = .ok (next, slept))
    ∧ (∀ (fuel : Nat) (op : Nat → T × Option E) (rnd : Nat → Int) (p : GoPanic),
        opts.TimeoutInNanosecs * 2 ^ triangle (fuel - 1) < 2 ^ 63 → (fuel : Int) < 2 ^ 63 →
        PerformBackoff fuel (NewExponentialBackoffStrat opts) op rnd ≠ some (.error p)) := by
  refine ⟨fun n s r hs hov hn => failedAttempt_sinceReset_ok h0 hov hn hs r, ?_⟩
  intro fuel op rnd p hov hn
  exact loop_no_panic op rnd opts h0 fuel 0 _ 0 [] SinceReset.fresh
    (fun j hj => by
      rw [Nat.zero_add]
      exact lt_of_le_of_lt (timeout_mono h0 (by omega)) hov)
    (by rw [Nat.zero_add]; exact hn) p

/-- C19, concrete instance: timeout `100`, four loop iterations of an operation that never
succeeds: no panic. -/
theorem C19_no_panic_without_overflow_witness :
    PerformBackoff 4 (NewExponentialBackoffStrat ⟨100, none⟩) (alwaysFails (0 : Nat))
        (fun _ => 0) ≠ some (.error .invalidIntn) :=
  (C19_no_panic_without_overflow (T := Nat) (E := Unit) ⟨100, none⟩ (by decide)).2 4
    (alwaysFails (0 : Nat)) (fun _ => 0) .invalidIntn (by decide) (by decide)

/-- C19 as written fails: a strategy constructed with `initialTimeoutNanos = 2 ^ 62 >= 0`
and an operation that keeps failing reaches a panicking step at its third failed attempt.
The second failure has shifted the timeout to `2 ^ 63`, which the Go `int` holds as
`-2 ^ 63`; the argument handed to `rand.Intn` is then `-2 ^ 62 + 1 < 1`. -/
theorem C19_counterexample :
    (0 : Int) ≤ 2 ^ 62
    ∧ (∀ fuel : Nat,
        PerformBackoff (fuel + 3) (NewExponentialBackoffStrat ⟨2 ^ 62, none⟩)
            (alwaysFails (0 : Nat)) (fun _ => 0)
          = some (.error .invalidIntn))
    ∧ (PerformBackoff 3 (NewExponentialBackoffStrat ⟨2 ^ 62, none⟩)
          (failsThenSucceeds 2 (7 : Nat) 0) (fun _ => 0)).map (Except.map (·.strat))
        = some (.ok ⟨3, 2 ^ 62, -(2 ^ 63), -1⟩)
    ∧ wrap64 (2 * Int.tdiv (-(2 ^ 63)) 4 + 1) = -(2 ^ 62) + 1
    ∧ generateJitter ⟨3, 2 ^ 62, -(2 ^ 63), -1⟩ 0 = .error .invalidIntn :=
  ⟨by decide, fun _ => rfl, by rfl, by rfl, by rfl⟩

/-! ## C20 -/

/-- C20: a strategy constructed with `MaxRetries` explicitly pointing to `-1` has the same
state as one constructed with `MaxRetries` absent, and `PerformBackoff` on it never returns
the exhaustion failure (whenever it returns, the error is nil); for every explicit
`MaxRetries = m <= -2` a fresh strategy's `PerformBackoff` returns the exhaustion failure
at once, with no invocation of the operation, no sleep and the state unchanged. -/
theorem C20_explicit_negative_bounds {T E : Type} [Inhabited T] (T0 m : Int) (hm : m ≤ -2) :
    NewExponentialBackoffStrat ⟨T0, some (-1)⟩ = NewExponentialBackoffStrat ⟨T0, none⟩
    ∧ (∀ (fuel : Nat) (op : Nat → T × Option E) (rnd : Nat → Int) (run : BackoffRun T E),
        PerformBackoff fuel (NewExponentialBackoffStrat ⟨T0, some (-1)⟩) op rnd
          = some (.ok run) → run.err = none)
    ∧ (∀ (fuel : Nat) (op : Nat → T × Option E) (rnd : Nat → Int),
        PerformBackoff (fuel + 1) (NewExponentialBackoffStrat ⟨T0, some m⟩) op rnd
          = some (.ok ⟨GetZero T, some (.errorsNew maxRetriesMsg),
              NewExponentialBackoffStrat ⟨T0, some m⟩, 0, []⟩)) := by
  refine ⟨rfl, ?_, ?_⟩
  · intro fuel op rnd run h
    rcases loop_error_only_on_exhaustion op rnd fuel _ 0 [] run h with hnone | ⟨hex, _, _⟩
    · exact hnone
    · have hfr := (loop_frame op rnd fuel _ 0 [] run h).2
      rw [exhausted_iff] at hex
      exact absurd (show run.strat.maxRetries = DefaultMaxRetries from hfr) hex.2
  · intro fuel op rnd
    have hx : exhausted (NewExponentialBackoffStrat ⟨T0, some m⟩) = true := by
      rw [exhausted_iff]
      simp only [NewExponentialBackoffStrat, DefaultMaxRetries]
      constructor <;> omega
    rw [PerformBackoff, loop_exhausted op rnd fuel _ 0 [] hx]

/-- C20, concrete instance: `MaxRetries = -2`, an operation that would succeed at once. -/
theorem C20_explicit_negative_bounds_witness :
    PerformBackoff (0 + 1) (NewExponentialBackoffStrat ⟨1000, some (-2)⟩)
        (failsThenSucceeds 0 (7 : Nat) 0) (fun _ => 0)
      = some (.ok ⟨GetZero Nat, some (.errorsNew maxRetriesMsg),
          NewExponentialBackoffStrat ⟨1000, some (-2)⟩, 0, []⟩) :=
  (C20_explicit_negative_bounds (T := Nat) (E := Unit) 1000 (-2) (by decide)).2.2 0
    (failsThenSucceeds 0 (7 : Nat) 0) (fun _ => 0)

end Utils
